import Mathlib

/-!
Verification development for the agentictx diagram layout and interaction
engine (frontend/src/modules/agentic-design).

The definitions below are a shallow embedding of the TypeScript source:

* `buildDiagramLayout` — the deterministic layout function of
  `buildDiagramLayout.tsx` (zones: prompt row, input column, agent,
  tool column with per-tool system sub-stacks, output row).
* `computeAutoLayout` — `computeAutoLayout.ts`.
* `computeSnapGuides` — `snapGuides.ts`.
* `handleAlign` / `handleDistribute` — the alignment/distribution handlers
  of the diagram controller.
* `handleNodeEditRun` / `savePositionsRun` — the optimistic-update /
  rollback behaviour of the field-edit and position persistence paths.
* `toolFormPatch` — the spec patch built by the tool node's detail form.

Numbers are modelled as exact rationals (`ℚ`); the source computes with JS
doubles, whose arithmetic on these layout quantities is exact as well.
Node ids, formatted in the source as template strings
(`agent-${spec.id}`, `input-${i}`, `prompt-dynamic-${i}`, `tool-${ti}`,
`system-${ti}-${si}`, …), are embedded as the tagged type `NodeId`; the
string templates are injective renderings of exactly these tags.
Node `data` payloads (render callbacks, spec fragments), edge emission and
edge labels are not modelled: no claim concerns them, and node positions
and sizes do not depend on them.
-/

namespace Agentictx

/-! ### Geometry primitives -/

/-- Canvas position (top-left corner), `{x, y}` in the source. -/
structure Pos where
  x : ℚ
  y : ℚ
deriving DecidableEq, Repr

/-- Deterministic node identifier. Each constructor corresponds to one id
template string of the source (`agent-${spec.id}`, `prompt-system`,
`prompt-dynamic-${i}`, `prompt-fewshot`, `prompt-guardrail-${i}`,
`input-${i}`, `tool-${ti}`, `system-${ti}-${si}`, `output-${i}`). -/
inductive NodeId where
  | agent (specId : String)
  | promptSystem
  | promptDynamic (i : ℕ)
  | promptFewshot
  | promptGuardrail (i : ℕ)
  | input (i : ℕ)
  | tool (ti : ℕ)
  | system (ti : ℕ) (si : ℕ)
  | output (i : ℕ)
deriving DecidableEq, Repr

/-- React-Flow node `type` tag used by the layout (render component key). -/
inductive NodeType where
  | agentNode
  | inputChannelNode
  | promptComponentNode
  | toolNode
  | systemNode
  | outputChannelNode
deriving DecidableEq, Repr

/-- A diagram node as produced by `buildDiagramLayout`: id, type tag,
position and declared width/height. -/
structure DiagNode where
  id : NodeId
  ntype : NodeType
  pos : Pos
  width : ℚ
  height : ℚ
deriving DecidableEq, Repr

/-- Persisted position map (`node_positions`): association list from node id
to canvas position, modelling the JS record keyed by id strings. -/
abbrev PosMap := List (NodeId × Pos)

/-- Lookup in a position map (JS object key access `m[nodeId]`). -/
def posLookup (m : PosMap) (k : NodeId) : Option Pos :=
  match m with
  | [] => none
  | e :: rest => if e.1 = k then some e.2 else posLookup rest k

/-- Two axis-aligned boxes overlap when their interiors intersect. -/
def boxesOverlap (m n : DiagNode) : Prop :=
  m.pos.x < n.pos.x + n.width ∧ n.pos.x < m.pos.x + m.width ∧
    m.pos.y < n.pos.y + n.height ∧ n.pos.y < m.pos.y + m.height

instance (m n : DiagNode) : Decidable (boxesOverlap m n) := by
  unfold boxesOverlap; infer_instance

/-! ### Specification data model

The diagram-flavoured `AgentSpecification` of `@/types/agentic_design`,
restricted to the fields the embedded operations read.  Optionality follows
the defensive defaults in the source (`?? 0`, `?? []`, `?? ""`,
`|| undefined`). -/

/-- Connected system entry of a tool (field `node_prefix` of the source is
embedded as `nodePrefix`). -/
structure ConnectedSystem where
  name : String
  nodePrefix : String
  type : String
  status : String
deriving DecidableEq, Repr

/-- Tool / MCP entry of the tool stack. -/
structure Tool where
  name : String
  type : String
  status : String
  build_effort : Option String
  input_tokens_per_call : Option ℚ
  output_tokens_per_call : Option ℚ
  output_cache_hit_pct : Option ℚ
  connected_systems : Option (List ConnectedSystem)
deriving DecidableEq, Repr

/-- Input channel entry. -/
structure InputChannel where
  name : String
  type : String
  description : Option String
  estimated_tokens_per_call : Option ℚ
deriving DecidableEq, Repr

/-- Output channel entry. -/
structure OutputChannel where
  name : String
  type : String
  destination : Option String
  format : Option String
  estimated_tokens : Option ℚ
  latency_requirement_ms : Option ℚ
deriving DecidableEq, Repr

/-- System prompt block of the prompt requirements. -/
structure SystemPrompt where
  description : String
  estimated_tokens : Option ℚ
  cache_hit_pct : Option ℚ
  engineering_effort : Option String
deriving DecidableEq, Repr

/-- Dynamic context entry of the prompt requirements. -/
structure DynamicContext where
  name : String
  source : String
  estimated_tokens_per_call : Option ℚ
  cache_hit_pct : Option ℚ
  fetch_frequency : Option String
deriving DecidableEq, Repr

/-- Few-shot examples block of the prompt requirements. -/
structure FewShotExamples where
  description : String
  estimated_tokens : Option ℚ
  cache_hit_pct : Option ℚ
  update_frequency : Option String
deriving DecidableEq, Repr

/-- Guardrail entry of the prompt requirements. -/
structure Guardrail where
  description : String
  type : String
  estimated_tokens : Option ℚ
  cache_hit_pct : Option ℚ
deriving DecidableEq, Repr

/-- Prompt requirements group. -/
structure PromptRequirements where
  system_prompt : Option SystemPrompt
  dynamic_context : Option (List DynamicContext)
  few_shot_examples : Option FewShotExamples
  guardrails : Option (List Guardrail)
deriving DecidableEq, Repr

/-- The agent specification fields read by the diagram core. -/
structure AgentSpec where
  id : String
  name : String
  input_channels : Option (List InputChannel)
  prompt_requirements : Option PromptRequirements
  tool_stack : Option (List Tool)
  output_channels : Option (List OutputChannel)
  node_positions : Option PosMap
deriving DecidableEq, Repr

/-- View mode toggle; it selects rendered fields and edge labels only and
does not enter any position computation. -/
inductive ViewMode where
  | architecture
  | token_economics
deriving DecidableEq, Repr

/-! ### Layout constants (node dimensions, spacing, zone x positions) -/

def AGENT_W : ℚ := 280
def AGENT_H : ℚ := 140
def INPUT_W : ℚ := 160
def INPUT_H : ℚ := 60
def PROMPT_W : ℚ := 180
def PROMPT_H : ℚ := 70
def TOOL_W : ℚ := 200
def TOOL_H : ℚ := 90
def SYS_W : ℚ := 160
def SYS_H : ℚ := 50
def OUTPUT_W : ℚ := 180
def OUTPUT_H : ℚ := 70

def H_GAP : ℚ := 80
def V_GAP : ℚ := 30
def SYS_V_GAP : ℚ := 16
def PROMPT_H_GAP : ℚ := 12
def OUTPUT_H_GAP : ℚ := 12
def PROMPT_TOP : ℚ := 30
def PROMPT_TO_MAIN : ℚ := 60
def MAIN_TO_OUTPUT : ℚ := 60

def INPUT_X : ℚ := 60
def AGENT_X : ℚ := INPUT_X + INPUT_W + H_GAP
def TOOL_X : ℚ := AGENT_X + AGENT_W + H_GAP
def SYS_X : ℚ := TOOL_X + TOOL_W + H_GAP
def CONTENT_CENTER_X : ℚ := (INPUT_X + SYS_X + SYS_W) / 2

/-! ### Layout engine -/

/-- Saved-position override: `saved?.[nodeId] ?? { x: defaultX, y: defaultY }`. -/
def resolvePos (nodeId : NodeId) (defaultX defaultY : ℚ)
    (saved : Option PosMap) : Pos :=
  (saved.bind (fun m => posLookup m nodeId)).getD ⟨defaultX, defaultY⟩

/-- Distribute `count` items of width `itemW` with at least `minGap` between
them, centred at `centreX`; returns the left-edge X of each item. -/
def spreadCentred (count : ℕ) (itemW minGap centreX : ℚ) : List ℚ :=
  if count = 0 then [] else
    let spacing := itemW + minGap
    let groupW := count * itemW + ((count : ℚ) - 1) * minGap
    let startX := centreX - groupW / 2
    (List.range count).map (fun (i : ℕ) => startX + (i : ℚ) * spacing)

/-- Node construction through `resolvePos` (every `nodes.push` of the source
resolves its position this way). -/
def mkNode (saved : Option PosMap) (nid : NodeId) (nt : NodeType)
    (defaultX defaultY w h : ℚ) : DiagNode :=
  { id := nid, ntype := nt, pos := resolvePos nid defaultX defaultY saved,
    width := w, height := h }

def specInputs (spec : AgentSpec) : List InputChannel :=
  spec.input_channels.getD []

def specTools (spec : AgentSpec) : List Tool :=
  spec.tool_stack.getD []

def specOutputs (spec : AgentSpec) : List OutputChannel :=
  spec.output_channels.getD []

/-- The prompt-requirements group, `spec.prompt_requirements ?? {}`. -/
def specPrompt (spec : AgentSpec) : PromptRequirements :=
  spec.prompt_requirements.getD ⟨none, none, none, none⟩

/-- Step 1 of the layout: count of prompt nodes. -/
def promptCount (spec : AgentSpec) : ℕ :=
  (if (specPrompt spec).system_prompt.isSome then 1 else 0)
    + ((specPrompt spec).dynamic_context.getD []).length
    + (if (specPrompt spec).few_shot_examples.isSome then 1 else 0)
    + ((specPrompt spec).guardrails.getD []).length

/-- Input column height. -/
def inputColH (spec : AgentSpec) : ℚ :=
  if 0 < (specInputs spec).length then
    ((specInputs spec).length : ℚ) * INPUT_H
      + (((specInputs spec).length : ℚ) - 1) * V_GAP
  else 0

/-- Stacked height of `c` connected-system nodes. -/
def sysStackH (c : ℕ) : ℚ :=
  if 0 < c then (c : ℚ) * SYS_H + ((c : ℚ) - 1) * SYS_V_GAP else 0

/-- Effective height of one tool group:
`max(TOOL_H, stacked height of its connected systems)`. -/
def effectiveH (t : Tool) : ℚ :=
  max TOOL_H (sysStackH (t.connected_systems.getD []).length)

/-- One tool group: its effective height and the distance from the top of
the tool column to the group's centre. -/
structure ToolGroup where
  effectiveH : ℚ
  centerOffset : ℚ
deriving DecidableEq, Repr

/-- The source's tool-group measuring loop, started at accumulated column
height `colH`; pushes `{effectiveH, centerOffset}` per tool and adds
`V_GAP` after every group but the last. Returns the group list and the
final column height. -/
def toolGroupLoop : List Tool → ℚ → List ToolGroup × ℚ
  | [], colH => ([], colH)
  | t :: rest, colH =>
    let e := effectiveH t
    let next := toolGroupLoop rest (colH + e + if rest.isEmpty then 0 else V_GAP)
    (⟨e, colH + e / 2⟩ :: next.1, next.2)

def toolGroupsOf (spec : AgentSpec) : List ToolGroup :=
  (toolGroupLoop (specTools spec) 0).1

def toolColH (spec : AgentSpec) : ℚ :=
  (toolGroupLoop (specTools spec) 0).2

/-- Shared main-row height: `Math.max(AGENT_H, inputColH, toolColH, 1)`. -/
def mainRowH (spec : AgentSpec) : ℚ :=
  max (max (max AGENT_H (inputColH spec)) (toolColH spec)) 1

def mainRowTop (spec : AgentSpec) : ℚ :=
  PROMPT_TOP + (if 0 < promptCount spec then PROMPT_H + PROMPT_TO_MAIN else 0)

def outputTop (spec : AgentSpec) : ℚ :=
  mainRowTop spec + mainRowH spec + MAIN_TO_OUTPUT

def agentY (spec : AgentSpec) : ℚ :=
  mainRowTop spec + (mainRowH spec - AGENT_H) / 2

def inputGroupTop (spec : AgentSpec) : ℚ :=
  mainRowTop spec + (mainRowH spec - inputColH spec) / 2

def toolGroupStart (spec : AgentSpec) : ℚ :=
  mainRowTop spec + (mainRowH spec - toolColH spec) / 2

/-- Prompt node ids in source push order: system prompt, dynamic context
entries, few-shot block, guardrails. -/
def promptIds (spec : AgentSpec) : List NodeId :=
  (if (specPrompt spec).system_prompt.isSome then [NodeId.promptSystem] else [])
    ++ (List.range ((specPrompt spec).dynamic_context.getD []).length).map NodeId.promptDynamic
    ++ (if (specPrompt spec).few_shot_examples.isSome then [NodeId.promptFewshot] else [])
    ++ (List.range ((specPrompt spec).guardrails.getD []).length).map NodeId.promptGuardrail

/-- Step 5: prompt component nodes (top row, centred); the `col` counter of
the source pairs each pushed node with the next entry of `promptXs`. -/
def promptNodes (spec : AgentSpec) (saved : Option PosMap) : List DiagNode :=
  ((promptIds spec).zip
      (spreadCentred (promptCount spec) PROMPT_W PROMPT_H_GAP CONTENT_CENTER_X)).map
    (fun p => mkNode saved p.1 NodeType.promptComponentNode p.2 PROMPT_TOP PROMPT_W PROMPT_H)

/-- Step 6: input channel nodes (left column, centred in the main row). -/
def inputNodes (spec : AgentSpec) (saved : Option PosMap) : List DiagNode :=
  (List.range (specInputs spec).length).map (fun i =>
    mkNode saved (NodeId.input i) NodeType.inputChannelNode INPUT_X
      (inputGroupTop spec + (i : ℚ) * (INPUT_H + V_GAP)) INPUT_W INPUT_H)

/-- Step 7, one tool group: the tool node plus its system nodes, the latter
vertically centred on the tool's own centre. -/
def toolGroupNodes (saved : Option PosMap) (groupStart : ℚ) (ti : ℕ)
    (t : Tool) (g : ToolGroup) : List DiagNode :=
  let toolCenterY := groupStart + g.centerOffset
  let toolTopY := toolCenterY - TOOL_H / 2
  let connected := t.connected_systems.getD []
  let sGroupTop := toolCenterY - sysStackH connected.length / 2
  mkNode saved (NodeId.tool ti) NodeType.toolNode TOOL_X toolTopY TOOL_W TOOL_H
    :: (List.range connected.length).map (fun si =>
      mkNode saved (NodeId.system ti si) NodeType.systemNode SYS_X
        (sGroupTop + (si : ℚ) * (SYS_H + SYS_V_GAP)) SYS_W SYS_H)

/-- Step 7: all tool and system nodes, in source push order. -/
def toolZoneNodes (spec : AgentSpec) (saved : Option PosMap) : List DiagNode :=
  ((specTools spec).zip (toolGroupsOf spec)).enum.flatMap (fun p =>
    toolGroupNodes saved (toolGroupStart spec) p.1 p.2.1 p.2.2)

/-- Step 8: output channel nodes (bottom row, centred). -/
def outputNodes (spec : AgentSpec) (saved : Option PosMap) : List DiagNode :=
  ((List.range (specOutputs spec).length).zip
      (spreadCentred (specOutputs spec).length OUTPUT_W OUTPUT_H_GAP CONTENT_CENTER_X)).map
    (fun p => mkNode saved (NodeId.output p.1) NodeType.outputChannelNode p.2
      (outputTop spec) OUTPUT_W OUTPUT_H)

/-- The layout engine `buildDiagramLayout(spec, viewMode, savedPositions)`,
restricted to its node list (edges and node data payloads are not
modelled; `viewMode` does not enter any position or size). Push order:
agent, prompt row, input column, tool groups with their systems, output
row. -/
def buildDiagramLayout (spec : AgentSpec) (viewMode : ViewMode)
    (saved : Option PosMap) : List DiagNode :=
  mkNode saved (NodeId.agent spec.id) NodeType.agentNode AGENT_X (agentY spec)
      AGENT_W AGENT_H
    :: (promptNodes spec saved ++ inputNodes spec saved
        ++ toolZoneNodes spec saved ++ outputNodes spec saved)

/-- Auto-layout (`computeAutoLayout.ts`): run the layout with no saved
positions and collect every node's default position into a position map. -/
def computeAutoLayout (spec : AgentSpec) : PosMap :=
  (buildDiagramLayout spec ViewMode.architecture none).map (fun n => (n.id, n.pos))

/-! ### Snap engine (`snapGuides.ts`) -/

/-- A canvas node as the snap / alignment / distribution handlers see it
(React Flow `Node`): id, position, measured and declared sizes, selection
flag. `measuredWidth` flattens the source's `measured?.width` (absent when
either `measured` or its `width` is). -/
structure FlowNode where
  id : NodeId
  position : Pos
  measuredWidth : Option ℚ
  measuredHeight : Option ℚ
  width : Option ℚ
  height : Option ℚ
  selected : Bool
deriving DecidableEq, Repr

/-- Node width: `n.measured?.width ?? n.width ?? 0`. -/
def nodeW (n : FlowNode) : ℚ :=
  ((n.measuredWidth).orElse (fun _ => n.width)).getD 0

/-- Node height: `n.measured?.height ?? n.height ?? 0`. -/
def nodeH (n : FlowNode) : ℚ :=
  ((n.measuredHeight).orElse (fun _ => n.height)).getD 0

/-- Minimum of a list of rationals (`Math.min(...)` of a non-empty spread). -/
def listMin : List ℚ → ℚ
  | [] => 0
  | a :: rest => rest.foldl min a

/-- Maximum of a list of rationals (`Math.max(...)` of a non-empty spread). -/
def listMax : List ℚ → ℚ
  | [] => 0
  | a :: rest => rest.foldl max a

/-- Bounding box of a set of nodes: left/top/right/bottom and centre. -/
structure BBox where
  left : ℚ
  top : ℚ
  right : ℚ
  bottom : ℚ
  cx : ℚ
  cy : ℚ
deriving DecidableEq, Repr

/-- Bounding box of a non-empty node set (`getBBox`). -/
def getBBox (nodes : List FlowNode) : BBox :=
  let left := listMin (nodes.map (fun n => n.position.x))
  let top := listMin (nodes.map (fun n => n.position.y))
  let right := listMax (nodes.map (fun n => n.position.x + nodeW n))
  let bottom := listMax (nodes.map (fun n => n.position.y + nodeH n))
  ⟨left, top, right, bottom, (left + right) / 2, (top + bottom) / 2⟩

/-- Key edges of a single node (`getEdges`). -/
structure NodeEdges where
  left : ℚ
  right : ℚ
  cx : ℚ
  top : ℚ
  bottom : ℚ
  cy : ℚ
deriving DecidableEq, Repr

def getEdges (n : FlowNode) : NodeEdges :=
  let w := nodeW n
  let h := nodeH n
  ⟨n.position.x, n.position.x + w, n.position.x + w / 2,
    n.position.y, n.position.y + h, n.position.y + h / 2⟩

/-- The five X-axis alignment candidate pairs `[bbox value, ref value]`. -/
def xPairs (bbox : BBox) (r : NodeEdges) : List (ℚ × ℚ) :=
  [(bbox.left, r.left), (bbox.left, r.right), (bbox.cx, r.cx),
    (bbox.right, r.right), (bbox.right, r.left)]

/-- The five Y-axis alignment candidate pairs. -/
def yPairs (bbox : BBox) (r : NodeEdges) : List (ℚ × ℚ) :=
  [(bbox.top, r.top), (bbox.top, r.bottom), (bbox.cy, r.cy),
    (bbox.bottom, r.bottom), (bbox.bottom, r.top)]

/-- Per-axis accumulator of the candidate scan: current best delta and
guide-line position (absent until a candidate beats `minD`), and the
distance to beat. -/
structure AxisAcc where
  bestDelta : Option ℚ
  bestLinePos : Option ℚ
  minD : ℚ
deriving DecidableEq, Repr

/-- One candidate pair test: update the accumulator when the pair's
distance is strictly smaller than the distance to beat. -/
def stepPair (acc : AxisAcc) (p : ℚ × ℚ) : AxisAcc :=
  if |p.1 - p.2| < acc.minD then ⟨some (p.2 - p.1), some p.2, |p.1 - p.2|⟩
  else acc

/-- Guide line: vertical (fixed X) or horizontal (fixed Y). -/
inductive SnapLineType where
  | h
  | v
deriving DecidableEq, Repr

structure SnapLine where
  type : SnapLineType
  pos : ℚ
deriving DecidableEq, Repr

structure SnapResult where
  lines : List SnapLine
  snapDx : ℚ
  snapDy : ℚ
deriving DecidableEq, Repr

/-- Snap-guide computation (`computeSnapGuides`): scan every non-dragging
node's five candidate pairs per axis, tracking the first strictly-smaller
distance below `threshold` per axis.  The source computes
`Math.min`/`Math.max` over an empty dragging spread as `±∞`, making every
candidate distance infinite, so no candidate ever wins; that case is
embedded as an explicit early return. -/
def computeSnapGuides (draggingNodes allNodes : List FlowNode)
    (threshold : ℚ) : SnapResult :=
  let draggingIds := draggingNodes.map (fun n => n.id)
  let others := allNodes.filter (fun n => !(draggingIds.contains n.id))
  if others.isEmpty then ⟨[], 0, 0⟩
  else if draggingNodes.isEmpty then ⟨[], 0, 0⟩
  else
    let bbox := getBBox draggingNodes
    let acc := others.foldl
      (fun (a : AxisAcc × AxisAcc) o =>
        let r := getEdges o
        ((xPairs bbox r).foldl stepPair a.1, (yPairs bbox r).foldl stepPair a.2))
      (⟨none, none, threshold⟩, ⟨none, none, threshold⟩)
    let xLines : List SnapLine := match acc.1.bestLinePos with
      | some p => [⟨SnapLineType.v, p⟩]
      | none => []
    let yLines : List SnapLine := match acc.2.bestLinePos with
      | some p => [⟨SnapLineType.h, p⟩]
      | none => []
    ⟨xLines ++ yLines, acc.1.bestDelta.getD 0, acc.2.bestDelta.getD 0⟩

/-- Default threshold (`SNAP_THRESHOLD = 8` canvas pixels). -/
def SNAP_THRESHOLD : ℚ := 8

/-- All X-axis candidate pairs of a snap invocation, in scan order. -/
def xCandidates (bbox : BBox) (others : List FlowNode) : List (ℚ × ℚ) :=
  others.flatMap (fun o => xPairs bbox (getEdges o))

/-- All Y-axis candidate pairs of a snap invocation, in scan order. -/
def yCandidates (bbox : BBox) (others : List FlowNode) : List (ℚ × ℚ) :=
  others.flatMap (fun o => yPairs bbox (getEdges o))

/-- The non-dragging targets of a snap invocation. -/
def snapOthers (draggingNodes allNodes : List FlowNode) : List FlowNode :=
  allNodes.filter (fun n => !((draggingNodes.map (fun m => m.id)).contains n.id))

/-! ### Alignment / distribution (`handleAlign` / `handleDistribute`) -/

inductive AlignDir where
  | left
  | centerX
  | right
  | top
  | centerY
  | bottom
deriving DecidableEq, Repr

inductive DistributeDir where
  | h
  | v
deriving DecidableEq, Repr

/-- Alignment handler: no-op below 2 selected nodes; otherwise each
selected node's relevant coordinate is recomputed from the selection's own
bounding box, non-selected nodes pass through unchanged.  (The handler's
position-map write and debounced persistence are modelled separately, see
`savePositionsRun`.) -/
def handleAlign (dir : AlignDir) (nodes : List FlowNode) : List FlowNode :=
  let selected := nodes.filter (fun n => n.selected)
  if selected.length < 2 then nodes
  else
    let minLeft := listMin (selected.map (fun n => n.position.x))
    let maxRight := listMax (selected.map (fun n => n.position.x + nodeW n))
    let minTop := listMin (selected.map (fun n => n.position.y))
    let maxBottom := listMax (selected.map (fun n => n.position.y + nodeH n))
    let bboxCenterX := (minLeft + maxRight) / 2
    let bboxCenterY := (minTop + maxBottom) / 2
    nodes.map (fun n =>
      if n.selected then
        let newX := match dir with
          | AlignDir.left => minLeft
          | AlignDir.centerX => bboxCenterX - nodeW n / 2
          | AlignDir.right => maxRight - nodeW n
          | _ => n.position.x
        let newY := match dir with
          | AlignDir.top => minTop
          | AlignDir.centerY => bboxCenterY - nodeH n / 2
          | AlignDir.bottom => maxBottom - nodeH n
          | _ => n.position.y
        { n with position := ⟨newX, newY⟩ }
      else n)

/-- Selected nodes sorted ascending by x (`sort((a, b) => a.position.x -
b.position.x)`; both the JS sort and `mergeSort` are stable). -/
def sortedByX (l : List FlowNode) : List FlowNode :=
  l.mergeSort (fun a b => decide (a.position.x ≤ b.position.x))

/-- Selected nodes sorted ascending by y. -/
def sortedByY (l : List FlowNode) : List FlowNode :=
  l.mergeSort (fun a b => decide (a.position.y ≤ b.position.y))

/-- Horizontal span of the sorted selection: last trailing edge minus first
leading edge. -/
def hSpan (sorted : List FlowNode) : ℚ :=
  match sorted.head?, sorted.getLast? with
  | some f, some l => l.position.x + nodeW l - f.position.x
  | _, _ => 0

/-- Vertical span of the sorted selection. -/
def vSpan (sorted : List FlowNode) : ℚ :=
  match sorted.head?, sorted.getLast? with
  | some f, some l => l.position.y + nodeH l - f.position.y
  | _, _ => 0

/-- Uniform horizontal gap `(span − total width) / (count − 1)`. -/
def hDistGap (sorted : List FlowNode) : ℚ :=
  (hSpan sorted - (sorted.map nodeW).sum) / ((sorted.length : ℚ) - 1)

/-- Uniform vertical gap `(span − total height) / (count − 1)`. -/
def vDistGap (sorted : List FlowNode) : ℚ :=
  (vSpan sorted - (sorted.map nodeH).sum) / ((sorted.length : ℚ) - 1)

/-- The cursor loop `for n of sorted { xMap[n.id] = x; x += nw(n) + gap }`,
started at cursor position `x`. -/
def hAssignFrom (gap : ℚ) : List FlowNode → ℚ → List (NodeId × ℚ)
  | [], _ => []
  | n :: rest, x => (n.id, x) :: hAssignFrom gap rest (x + nodeW n + gap)

/-- The x-position map built by horizontal distribution. -/
def hAssign (sorted : List FlowNode) (gap : ℚ) : List (NodeId × ℚ) :=
  hAssignFrom gap sorted ((sorted.head?.map (fun n => n.position.x)).getD 0)

def vAssignFrom (gap : ℚ) : List FlowNode → ℚ → List (NodeId × ℚ)
  | [], _ => []
  | n :: rest, y => (n.id, y) :: vAssignFrom gap rest (y + nodeH n + gap)

/-- The y-position map built by vertical distribution. -/
def vAssign (sorted : List FlowNode) (gap : ℚ) : List (NodeId × ℚ) :=
  vAssignFrom gap sorted ((sorted.head?.map (fun n => n.position.y)).getD 0)

/-- Coordinate lookup in an assignment map. -/
def coordLookup (m : List (NodeId × ℚ)) (k : NodeId) : Option ℚ :=
  match m with
  | [] => none
  | e :: rest => if e.1 = k then some e.2 else coordLookup rest k

/-- Distribution handler: no-op below 3 selected nodes; otherwise sort the
selection along the axis, compute the uniform gap anchored at the extremes
and re-place each selected node at its cursor position
(`xMap[n.id] ?? n.position.x`), leaving the other coordinate and all
non-selected nodes unchanged. -/
def handleDistribute (dir : DistributeDir) (nodes : List FlowNode) : List FlowNode :=
  let selected := nodes.filter (fun n => n.selected)
  if selected.length < 3 then nodes
  else
    match dir with
    | DistributeDir.h =>
      let sorted := sortedByX selected
      let gap := hDistGap sorted
      let xMap := hAssign sorted gap
      nodes.map (fun n =>
        if n.selected then
          { n with position := ⟨(coordLookup xMap n.id).getD n.position.x, n.position.y⟩ }
        else n)
    | DistributeDir.v =>
      let sorted := sortedByY selected
      let gap := vDistGap sorted
      let yMap := vAssign sorted gap
      nodes.map (fun n =>
        if n.selected then
          { n with position := ⟨n.position.x, (coordLookup yMap n.id).getD n.position.y⟩ }
        else n)

/-! ### Diagram controller: optimistic update, persistence, rollback -/

/-- Partial specification update (`Partial<AgentSpecification>` patches as
the embedded paths build them): a present field replaces the whole
corresponding field of the spec, `{...current, ...patch}`. -/
structure SpecPatch where
  name : Option String
  input_channels : Option (List InputChannel)
  prompt_requirements : Option PromptRequirements
  tool_stack : Option (List Tool)
  output_channels : Option (List OutputChannel)
  node_positions : Option PosMap
deriving DecidableEq, Repr

/-- The empty patch. -/
def SpecPatch.empty : SpecPatch := ⟨none, none, none, none, none, none⟩

/-- Optimistic merge `{...current, ...patch}`. -/
def applyPatch (s : AgentSpec) (p : SpecPatch) : AgentSpec :=
  { s with
    name := p.name.getD s.name
    input_channels := match p.input_channels with
      | some v => some v
      | none => s.input_channels
    prompt_requirements := match p.prompt_requirements with
      | some v => some v
      | none => s.prompt_requirements
    tool_stack := match p.tool_stack with
      | some v => some v
      | none => s.tool_stack
    output_channels := match p.output_channels with
      | some v => some v
      | none => s.output_channels
    node_positions := match p.node_positions with
      | some v => some v
      | none => s.node_positions }

/-- The locally held controller state relevant to persistence: the current
specification object, the in-memory position map (`positionsRef.current`)
and the busy/saving indicator. -/
structure ControllerState where
  spec : AgentSpec
  positions : PosMap
  isSaving : Bool
deriving DecidableEq, Repr

/-- JS record write `m[k] = v`: replace the binding when present, add it
otherwise. -/
def posStore (m : PosMap) (k : NodeId) (v : Pos) : PosMap :=
  match m with
  | [] => [(k, v)]
  | e :: rest => if e.1 = k then (k, v) :: rest else e :: posStore rest k v

/-- Drag stop (`handleNodeDragStop`): write every moved node's final
position into the in-memory position map before persistence is scheduled. -/
def recordDragStop (st : ControllerState) (moved : List (NodeId × Pos)) :
    ControllerState :=
  { st with positions := moved.foldl (fun m e => posStore m e.1 e.2) st.positions }

/-- Outcome of an awaited persistence call: the authoritative saved spec, or
a failure. -/
abbrev SaveOutcome := Except Unit AgentSpec

/-- Field-patch save (`handleNodeEdit`), run to completion: apply the patch
optimistically, then on success replace the local spec with the server
response; on failure roll the local spec back to the pre-edit snapshot.
The saving indicator is cleared in `finally` either way. -/
def handleNodeEditRun (st : ControllerState) (patch : SpecPatch)
    (outcome : SaveOutcome) : ControllerState :=
  let current := st.spec
  let optimistic := applyPatch current patch
  let st1 := { st with spec := optimistic, isSaving := true }
  match outcome with
  | Except.ok saved => { st1 with spec := saved, isSaving := false }
  | Except.error _ => { st1 with spec := current, isSaving := false }

/-- Position-map save (`savePositions`), run to completion: on success
replace the local spec with the server response; on failure only log — the
in-memory position map and the local spec are left as they are.  The
saving indicator is cleared in `finally` either way. -/
def savePositionsRun (st : ControllerState) (outcome : SaveOutcome) :
    ControllerState :=
  let st1 := { st with isSaving := true }
  match outcome with
  | Except.ok saved => { st1 with spec := saved, isSaving := false }
  | Except.error _ => { st1 with isSaving := false }

/-! ### Tool detail form (`ToolForm` of `NodeDetailPanel.tsx`) -/

/-- The tool entry the form's Save writes back: every form field is
initialised from the tool (`?? ""` / `?? 0` / `?? []` defaults),
`build_effort` is normalised by `buildEffort || undefined`, and the
output-token field carries the edited value. -/
def formNormalize (t : Tool) (outputTok : ℚ) : Tool :=
  { t with
    build_effort := if t.build_effort.getD "" = "" then none
      else some (t.build_effort.getD "")
    input_tokens_per_call := some (t.input_tokens_per_call.getD 0)
    output_tokens_per_call := some outputTok
    output_cache_hit_pct := some (t.output_cache_hit_pct.getD 0)
    connected_systems := some (t.connected_systems.getD []) }

def toolFormPatch (spec : AgentSpec) (toolIndex : ℕ) (outputTok : ℚ) :
    Option SpecPatch :=
  match (spec.tool_stack.getD [])[toolIndex]? with
  | none => none
  | some tool =>
    let updated := (spec.tool_stack.getD []).set toolIndex
      (formNormalize tool outputTok)
    some { SpecPatch.empty with tool_stack := some updated }

/-- Commit of a tool output-token edit: build the form's patch and apply it
optimistically (`{...current, ...patch}`); a missing tool never saves. -/
def editToolOutputTokens (spec : AgentSpec) (toolIndex : ℕ) (outputTok : ℚ) :
    AgentSpec :=
  match toolFormPatch spec toolIndex outputTok with
  | none => spec
  | some p => applyPatch spec p

/-- The output-token value the form displays for a tool
(`tool?.output_tokens_per_call ?? 0`). -/
def displayedOutputTok (spec : AgentSpec) (toolIndex : ℕ) : ℚ :=
  (((spec.tool_stack.getD [])[toolIndex]?).bind
    (fun t => t.output_tokens_per_call)).getD 0

/-! ## Supporting lemmas -/

lemma mkNode_none (nid : NodeId) (nt : NodeType) (dx dy w h : ℚ) :
    mkNode none nid nt dx dy w h = ⟨nid, nt, ⟨dx, dy⟩, w, h⟩ := by
  simp [mkNode, resolvePos]

/-- Saved-position override as a transformation of an already-built node. -/
def overrideWith (saved : Option PosMap) (n : DiagNode) : DiagNode :=
  { n with pos := (saved.bind (fun m => posLookup m n.id)).getD n.pos }

lemma overrideWith_mkNode (saved : Option PosMap) (nid : NodeId)
    (nt : NodeType) (dx dy w h : ℚ) :
    overrideWith saved (mkNode none nid nt dx dy w h)
      = mkNode saved nid nt dx dy w h := by
  simp [overrideWith, mkNode, resolvePos]

/-- The layout with saved positions is the default layout with each node's
position overridden through the saved map; ids, type tags and sizes never
come from the map. -/
lemma buildDiagramLayout_override (spec : AgentSpec) (vm : ViewMode)
    (saved : Option PosMap) :
    buildDiagramLayout spec vm saved
      = (buildDiagramLayout spec vm none).map (overrideWith saved) := by
  unfold buildDiagramLayout promptNodes inputNodes toolZoneNodes outputNodes
    toolGroupNodes
  simp [List.map_flatMap, Function.comp_def, overrideWith_mkNode]

/-! ### Quantitative facts about the layout heights -/

lemma inputColH_nonneg (spec : AgentSpec) : 0 ≤ inputColH spec := by
  unfold inputColH
  split
  · rename_i hlen
    have h1 : (1 : ℚ) ≤ ((specInputs spec).length : ℚ) := by exact_mod_cast hlen
    norm_num [INPUT_H, V_GAP]
    nlinarith
  · exact le_refl 0

lemma AGENT_H_le_mainRowH (spec : AgentSpec) : AGENT_H ≤ mainRowH spec :=
  le_trans (le_trans (le_max_left _ _) (le_max_left _ _)) (le_max_left _ _)

lemma inputColH_le_mainRowH (spec : AgentSpec) : inputColH spec ≤ mainRowH spec :=
  le_trans (le_trans (le_max_right _ _) (le_max_left _ _)) (le_max_left _ _)

lemma toolColH_le_mainRowH (spec : AgentSpec) : toolColH spec ≤ mainRowH spec :=
  le_trans (le_max_right _ _) (le_max_left _ _)

lemma mainRowTop_ge (spec : AgentSpec) : PROMPT_TOP ≤ mainRowTop spec := by
  unfold mainRowTop
  split
  · norm_num [PROMPT_H, PROMPT_TO_MAIN]
  · norm_num

lemma mainRowTop_of_prompts (spec : AgentSpec) (h : 0 < promptCount spec) :
    mainRowTop spec = PROMPT_TOP + (PROMPT_H + PROMPT_TO_MAIN) := by
  unfold mainRowTop
  rw [if_pos h]

/-! ### Tool-group loop characterisation -/

lemma TOOL_H_le_effectiveH (t : Tool) : TOOL_H ≤ effectiveH t := le_max_left _ _

lemma sysStackH_le_effectiveH (t : Tool) :
    sysStackH (t.connected_systems.getD []).length ≤ effectiveH t := le_max_right _ _

lemma effectiveH_pos (t : Tool) : 0 < effectiveH t :=
  lt_of_lt_of_le (by norm_num [TOOL_H]) (TOOL_H_le_effectiveH t)

lemma gapIf_nonneg (b : Bool) : (0 : ℚ) ≤ if b = true then 0 else V_GAP := by
  split <;> norm_num [V_GAP]

lemma toolGroupLoop_fst_length (ts : List Tool) (acc : ℚ) :
    (toolGroupLoop ts acc).1.length = ts.length := by
  induction ts generalizing acc with
  | nil => rfl
  | cons t rest ih => simp [toolGroupLoop, ih]

lemma toolGroupLoop_snd_ge (ts : List Tool) (acc : ℚ) :
    acc ≤ (toolGroupLoop ts acc).2 := by
  induction ts generalizing acc with
  | nil => simp [toolGroupLoop]
  | cons t rest ih =>
    have h1 := ih (acc + effectiveH t + if rest.isEmpty then 0 else V_GAP)
    have h2 := gapIf_nonneg rest.isEmpty
    have h3 := effectiveH_pos t
    simp only [toolGroupLoop]
    linarith

lemma toolGroupLoop_get (ts : List Tool) (acc : ℚ) (k : ℕ) (hk : k < ts.length) :
    ∃ g t, (toolGroupLoop ts acc).1[k]? = some g ∧ ts[k]? = some t
      ∧ g.effectiveH = effectiveH t
      ∧ acc ≤ g.centerOffset - g.effectiveH / 2
      ∧ g.centerOffset + g.effectiveH / 2 ≤ (toolGroupLoop ts acc).2 := by
  induction ts generalizing acc k with
  | nil => simp at hk
  | cons t rest ih =>
    cases k with
    | zero =>
      refine ⟨⟨effectiveH t, acc + effectiveH t / 2⟩, t, by simp [toolGroupLoop],
        by simp, rfl, by simp, ?_⟩
      have h1 := toolGroupLoop_snd_ge rest
        (acc + effectiveH t + if rest.isEmpty then 0 else V_GAP)
      have h2 := gapIf_nonneg rest.isEmpty
      simp only [toolGroupLoop]
      linarith
    | succ k' =>
      have hk' : k' < rest.length := by simpa using hk
      obtain ⟨g, t', hg, ht', hle, hlo, hhi⟩ :=
        ih (acc + effectiveH t + if rest.isEmpty then 0 else V_GAP) k' hk'
      refine ⟨g, t', by simpa [toolGroupLoop] using hg, by simpa using ht', hle, ?_, ?_⟩
      · have h2 := gapIf_nonneg rest.isEmpty
        have h3 := effectiveH_pos t
        linarith
      · simpa [toolGroupLoop] using hhi

lemma toolGroupLoop_sep (ts : List Tool) (acc : ℚ) (k l : ℕ) (hkl : k < l)
    (gk gl : ToolGroup)
    (hgk : (toolGroupLoop ts acc).1[k]? = some gk)
    (hgl : (toolGroupLoop ts acc).1[l]? = some gl) :
    gk.centerOffset + gk.effectiveH / 2 + V_GAP
      ≤ gl.centerOffset - gl.effectiveH / 2 := by
  induction ts generalizing acc k l with
  | nil => simp [toolGroupLoop] at hgk
  | cons t rest ih =>
    obtain ⟨l', rfl⟩ : ∃ l', l = l' + 1 := ⟨l - 1, by omega⟩
    have hgl' : (toolGroupLoop rest
        (acc + effectiveH t + if rest.isEmpty then 0 else V_GAP)).1[l']? = some gl := by
      simpa [toolGroupLoop] using hgl
    have hl' : l' < rest.length := by
      have h := (List.getElem?_eq_some_iff.1 hgl').1
      rwa [toolGroupLoop_fst_length] at h
    have hrest : rest.isEmpty = false := by
      cases rest
      · simp at hl'
      · rfl
    cases k with
    | zero =>
      have hgk' : gk = ⟨effectiveH t, acc + effectiveH t / 2⟩ := by
        have := hgk
        simp only [toolGroupLoop, List.getElem?_cons_zero] at this
        exact (Option.some.inj this).symm
      obtain ⟨g, t', hg, _, _, hlo, _⟩ := toolGroupLoop_get rest
        (acc + effectiveH t + if rest.isEmpty then 0 else V_GAP) l' hl'
      have hgeq : g = gl := by
        rw [hg] at hgl'
        exact Option.some.inj hgl'
      rw [hgeq, hrest] at hlo
      simp only [Bool.false_eq_true, if_false] at hlo
      rw [hgk']
      simp only
      linarith
    | succ k' =>
      have hgk' : (toolGroupLoop rest
          (acc + effectiveH t + if rest.isEmpty then 0 else V_GAP)).1[k']? = some gk := by
        simpa [toolGroupLoop] using hgk
      exact ih _ k' l' (by omega) hgk' hgl'

lemma toolColH_nonneg (spec : AgentSpec) : 0 ≤ toolColH spec :=
  toolGroupLoop_snd_ge (specTools spec) 0

/-! ### Box-separation helpers -/

lemma no_overlap_of_le_x {m n : DiagNode} (h : m.pos.x + m.width ≤ n.pos.x) :
    ¬ boxesOverlap m n := fun hc => absurd hc.2.1 (not_lt.2 h)

lemma no_overlap_of_le_x' {m n : DiagNode} (h : n.pos.x + n.width ≤ m.pos.x) :
    ¬ boxesOverlap m n := fun hc => absurd hc.1 (not_lt.2 h)

lemma no_overlap_of_le_y {m n : DiagNode} (h : m.pos.y + m.height ≤ n.pos.y) :
    ¬ boxesOverlap m n := fun hc => absurd hc.2.2.2 (not_lt.2 h)

lemma no_overlap_of_le_y' {m n : DiagNode} (h : n.pos.y + n.height ≤ m.pos.y) :
    ¬ boxesOverlap m n := fun hc => absurd hc.2.2.1 (not_lt.2 h)

/-! ### Per-segment shape lemmas (default layout) -/

lemma spreadCentred_length (c : ℕ) (w g x : ℚ) :
    (spreadCentred c w g x).length = c := by
  unfold spreadCentred
  split
  · rename_i hc
    simp [hc]
  · simp

lemma spreadCentred_getElem (c : ℕ) (w g x : ℚ) (i : ℕ) (hi : i < c) :
    (spreadCentred c w g x)[i]?
      = some (x - ((c : ℚ) * w + ((c : ℚ) - 1) * g) / 2 + (i : ℚ) * (w + g)) := by
  unfold spreadCentred
  rw [if_neg (by omega)]
  rw [List.getElem?_map, List.getElem?_range hi]
  rfl

lemma promptIds_length (spec : AgentSpec) :
    (promptIds spec).length = promptCount spec := by
  unfold promptIds promptCount
  cases h1 : (specPrompt spec).system_prompt.isSome <;>
    cases h2 : (specPrompt spec).few_shot_examples.isSome <;>
      simp [h1, h2] <;> omega

lemma mem_promptIds_shape {spec : AgentSpec} {x : NodeId}
    (h : x ∈ promptIds spec) :
    x = NodeId.promptSystem ∨ (∃ i, x = NodeId.promptDynamic i)
      ∨ x = NodeId.promptFewshot ∨ (∃ i, x = NodeId.promptGuardrail i) := by
  unfold promptIds at h
  rcases List.mem_append.1 h with h1 | h1
  · rcases List.mem_append.1 h1 with h2 | h2
    · rcases List.mem_append.1 h2 with h3 | h3
      · by_cases hc : (specPrompt spec).system_prompt.isSome <;> simp [hc] at h3
        exact Or.inl h3
      · obtain ⟨i, hi, heq⟩ := List.mem_map.1 h3
        exact Or.inr (Or.inl ⟨i, heq.symm⟩)
    · by_cases hc : (specPrompt spec).few_shot_examples.isSome <;> simp [hc] at h2
      exact Or.inr (Or.inr (Or.inl h2))
  · obtain ⟨i, hi, heq⟩ := List.mem_map.1 h1
    exact Or.inr (Or.inr (Or.inr ⟨i, heq.symm⟩))

lemma mem_promptNodes_shape (spec : AgentSpec) {n : DiagNode}
    (h : n ∈ promptNodes spec none) :
    (n.id = NodeId.promptSystem ∨ (∃ i, n.id = NodeId.promptDynamic i)
       ∨ n.id = NodeId.promptFewshot ∨ (∃ i, n.id = NodeId.promptGuardrail i))
    ∧ n.pos.y = PROMPT_TOP ∧ n.height = PROMPT_H ∧ 0 < promptCount spec := by
  unfold promptNodes at h
  obtain ⟨p, hp, rfl⟩ := List.mem_map.1 h
  have hid := (List.of_mem_zip hp).1
  have hlen : 0 < promptCount spec := by
    rw [← promptIds_length spec]
    exact List.length_pos_of_mem hid
  rw [mkNode_none]
  exact ⟨mem_promptIds_shape hid, rfl, rfl, hlen⟩

lemma mem_inputNodes_shape (spec : AgentSpec) {n : DiagNode}
    (h : n ∈ inputNodes spec none) :
    (∃ i, n.id = NodeId.input i)
    ∧ n.pos.x = INPUT_X ∧ n.width = INPUT_W
    ∧ mainRowTop spec ≤ n.pos.y
    ∧ n.pos.y + n.height ≤ mainRowTop spec + mainRowH spec := by
  unfold inputNodes at h
  obtain ⟨i, hi, rfl⟩ := List.mem_map.1 h
  rw [List.mem_range] at hi
  rw [mkNode_none]
  refine ⟨⟨i, rfl⟩, rfl, rfl, ?_, ?_⟩
  · have h1 := inputColH_le_mainRowH spec
    have h2 : (0 : ℚ) ≤ (i : ℚ) * (INPUT_H + V_GAP) :=
      mul_nonneg (by positivity) (by norm_num [INPUT_H, V_GAP])
    show mainRowTop spec ≤ inputGroupTop spec + (i : ℚ) * (INPUT_H + V_GAP)
    unfold inputGroupTop
    linarith
  · have h1 := inputColH_le_mainRowH spec
    have hlen : 0 < (specInputs spec).length := by omega
    have h2 : (i : ℚ) * (INPUT_H + V_GAP) + INPUT_H ≤ inputColH spec := by
      unfold inputColH
      rw [if_pos hlen]
      have h3 : (i : ℚ) + 1 ≤ ((specInputs spec).length : ℚ) := by exact_mod_cast hi
      norm_num [INPUT_H, V_GAP]
      nlinarith
    show inputGroupTop spec + (i : ℚ) * (INPUT_H + V_GAP) + INPUT_H
      ≤ mainRowTop spec + mainRowH spec
    unfold inputGroupTop
    linarith

lemma mem_outputNodes_shape (spec : AgentSpec) {n : DiagNode}
    (h : n ∈ outputNodes spec none) :
    (∃ i, n.id = NodeId.output i)
    ∧ n.pos.y = outputTop spec ∧ n.height = OUTPUT_H := by
  unfold outputNodes at h
  obtain ⟨p, hp, rfl⟩ := List.mem_map.1 h
  rw [mkNode_none]
  exact ⟨⟨p.1, rfl⟩, rfl, rfl⟩

lemma agentY_band (spec : AgentSpec) :
    mainRowTop spec ≤ agentY spec
    ∧ agentY spec + AGENT_H ≤ mainRowTop spec + mainRowH spec := by
  have h := AGENT_H_le_mainRowH spec
  unfold agentY
  constructor <;> linarith

lemma prompt_bottom_le_mainRowTop (spec : AgentSpec) (h : 0 < promptCount spec) :
    PROMPT_TOP + PROMPT_H ≤ mainRowTop spec := by
  rw [mainRowTop_of_prompts spec h]
  norm_num [PROMPT_TO_MAIN]

lemma mainRow_bottom_le_outputTop (spec : AgentSpec) :
    mainRowTop spec + mainRowH spec ≤ outputTop spec := by
  unfold outputTop
  norm_num [MAIN_TO_OUTPUT]

/-! ### Tool zone geometry -/

lemma sysStackH_nonneg (c : ℕ) : 0 ≤ sysStackH c := by
  unfold sysStackH
  split
  · rename_i hc
    have h1 : (1 : ℚ) ≤ (c : ℚ) := by exact_mod_cast hc
    norm_num [SYS_H, SYS_V_GAP]
    nlinarith
  · exact le_refl 0

lemma sys_le_sysStackH (si c : ℕ) (h : si < c) :
    (si : ℚ) * (SYS_H + SYS_V_GAP) + SYS_H ≤ sysStackH c := by
  have h1 : (si : ℚ) + 1 ≤ (c : ℚ) := by exact_mod_cast h
  unfold sysStackH
  rw [if_pos (by omega)]
  norm_num [SYS_H, SYS_V_GAP]
  nlinarith

lemma zip_getElem?_eq {α β : Type _} {l1 : List α} {l2 : List β} {k : ℕ}
    {v : α × β} (h : (l1.zip l2)[k]? = some v) :
    l1[k]? = some v.1 ∧ l2[k]? = some v.2 := by
  obtain ⟨hk, hv⟩ := List.getElem?_eq_some_iff.1 h
  rw [List.length_zip, lt_min_iff] at hk
  rw [List.getElem_zip] at hv
  cases hv
  exact ⟨List.getElem?_eq_getElem hk.1, List.getElem?_eq_getElem hk.2⟩

lemma mem_toolGroupNodes_band {gs : ℚ} {ti : ℕ} {t : Tool} {g : ToolGroup}
    (hlink : g.effectiveH = effectiveH t) {n : DiagNode}
    (h : n ∈ toolGroupNodes none gs ti t g) :
    ((n.id = NodeId.tool ti ∧ n.pos.x = TOOL_X ∧ n.width = TOOL_W)
       ∨ (∃ si, n.id = NodeId.system ti si ∧ n.pos.x = SYS_X ∧ n.width = SYS_W))
    ∧ gs + (g.centerOffset - g.effectiveH / 2) ≤ n.pos.y
    ∧ n.pos.y + n.height ≤ gs + (g.centerOffset + g.effectiveH / 2) := by
  unfold toolGroupNodes at h
  have hEff : TOOL_H ≤ g.effectiveH := by
    rw [hlink]; exact TOOL_H_le_effectiveH t
  rcases List.mem_cons.1 h with rfl | h
  · rw [mkNode_none]
    refine ⟨Or.inl ⟨rfl, rfl, rfl⟩, ?_, ?_⟩ <;>
      · dsimp only
        linarith
  · obtain ⟨si, hsi, rfl⟩ := List.mem_map.1 h
    rw [List.mem_range] at hsi
    rw [mkNode_none]
    have hEffS : sysStackH (t.connected_systems.getD []).length ≤ g.effectiveH := by
      rw [hlink]; exact sysStackH_le_effectiveH t
    have hbound := sys_le_sysStackH si _ hsi
    have hnn : (0 : ℚ) ≤ (si : ℚ) * (SYS_H + SYS_V_GAP) :=
      mul_nonneg (by positivity) (by norm_num [SYS_H, SYS_V_GAP])
    refine ⟨Or.inr ⟨si, rfl, rfl, rfl⟩, ?_, ?_⟩ <;>
      · dsimp only
        linarith

lemma mem_toolZoneNodes_core (spec : AgentSpec) {n : DiagNode}
    (h : n ∈ toolZoneNodes spec none) :
    ∃ ti t g, (specTools spec)[ti]? = some t
      ∧ (toolGroupsOf spec)[ti]? = some g
      ∧ g.effectiveH = effectiveH t
      ∧ n ∈ toolGroupNodes none (toolGroupStart spec) ti t g := by
  unfold toolZoneNodes at h
  obtain ⟨p, hp, hn⟩ := List.mem_flatMap.1 h
  have hp' := List.mem_enum_iff_getElem?.1 hp
  obtain ⟨ht, hg⟩ := zip_getElem?_eq hp'
  have hidx : p.1 < (specTools spec).length := (List.getElem?_eq_some_iff.1 ht).1
  obtain ⟨g', t', hg', ht', hlink, hlo, hhi⟩ :=
    toolGroupLoop_get (specTools spec) 0 p.1 hidx
  have e1 : p.2.1 = t' := by
    rw [ht] at ht'
    exact Option.some.inj ht'
  have e2 : p.2.2 = g' := by
    unfold toolGroupsOf at hg
    rw [hg] at hg'
    exact Option.some.inj hg'
  refine ⟨p.1, p.2.1, p.2.2, ht, hg, ?_, hn⟩
  rw [e1, e2]
  exact hlink

lemma mem_toolZoneNodes_shape (spec : AgentSpec) {n : DiagNode}
    (h : n ∈ toolZoneNodes spec none) :
    ((∃ ti, n.id = NodeId.tool ti) ∨ (∃ ti si, n.id = NodeId.system ti si))
    ∧ ((n.pos.x = TOOL_X ∧ n.width = TOOL_W)
        ∨ (n.pos.x = SYS_X ∧ n.width = SYS_W))
    ∧ mainRowTop spec ≤ n.pos.y
    ∧ n.pos.y + n.height ≤ mainRowTop spec + mainRowH spec := by
  obtain ⟨ti, t, g, ht, hg, hlink, hn⟩ := mem_toolZoneNodes_core spec h
  have hidx : ti < (specTools spec).length := by
    have h1 := (List.getElem?_eq_some_iff.1 ht).1
    exact h1
  obtain ⟨g', t', hg', ht', _, hlo, hhi⟩ :=
    toolGroupLoop_get (specTools spec) 0 ti hidx
  have e2 : g = g' := by
    unfold toolGroupsOf at hg
    rw [hg] at hg'
    exact Option.some.inj hg'
  subst e2
  obtain ⟨hid, hband_lo, hband_hi⟩ := mem_toolGroupNodes_band hlink hn
  have hcol := toolColH_le_mainRowH spec
  have hColBound : g.centerOffset + g.effectiveH / 2 ≤ toolColH spec := hhi
  constructor
  · rcases hid with ⟨h1, _, _⟩ | ⟨si, h1, _, _⟩
    · exact Or.inl ⟨ti, h1⟩
    · exact Or.inr ⟨ti, si, h1⟩
  constructor
  · rcases hid with ⟨_, h2, h3⟩ | ⟨si, _, h2, h3⟩
    · exact Or.inl ⟨h2, h3⟩
    · exact Or.inr ⟨h2, h3⟩
  constructor
  · have : mainRowTop spec ≤ toolGroupStart spec + (g.centerOffset - g.effectiveH / 2) := by
      unfold toolGroupStart
      linarith
    linarith
  · have : toolGroupStart spec + (g.centerOffset + g.effectiveH / 2)
        ≤ mainRowTop spec + mainRowH spec := by
      unfold toolGroupStart
      linarith
    linarith

/-! ### Per-segment pairwise separation -/

/-- Two distinct layout nodes have distinct ids and non-overlapping boxes. -/
def layoutSep (m n : DiagNode) : Prop := m.id ≠ n.id ∧ ¬ boxesOverlap m n

lemma pairwise_zip {α β : Type _} {R1 : α → α → Prop} {R2 : β → β → Prop}
    {l1 : List α} {l2 : List β} (h1 : l1.Pairwise R1) (h2 : l2.Pairwise R2) :
    (l1.zip l2).Pairwise (fun p q => R1 p.1 q.1 ∧ R2 p.2 q.2) := by
  induction l1 generalizing l2 with
  | nil => simp
  | cons a l1 ih =>
    cases l2 with
    | nil => simp
    | cons b l2 =>
      rw [List.zip_cons_cons, List.pairwise_cons]
      constructor
      · intro p hp
        obtain ⟨hp1, hp2⟩ := List.of_mem_zip hp
        exact ⟨(List.pairwise_cons.1 h1).1 _ hp1, (List.pairwise_cons.1 h2).1 _ hp2⟩
      · exact ih (List.pairwise_cons.1 h1).2 (List.pairwise_cons.1 h2).2

lemma spreadCentred_pairwise (c : ℕ) (w g x : ℚ) (hw : 0 ≤ w) (hg : 0 ≤ g) :
    (spreadCentred c w g x).Pairwise (fun a b => a + w ≤ b) := by
  unfold spreadCentred
  split
  · simp
  · rw [List.pairwise_map]
    refine (List.pairwise_lt_range c).imp ?_
    intro a b hab
    have h1 : (a : ℚ) + 1 ≤ (b : ℚ) := by exact_mod_cast hab
    have h2 : (1 : ℚ) * (w + g) ≤ ((b : ℚ) - (a : ℚ)) * (w + g) :=
      mul_le_mul_of_nonneg_right (by linarith) (by linarith)
    have h3 : ((b : ℚ) - (a : ℚ)) * (w + g) = (b : ℚ) * (w + g) - (a : ℚ) * (w + g) := by
      ring
    linarith

lemma promptIds_nodup (spec : AgentSpec) : (promptIds spec).Nodup := by
  have hinj1 : Function.Injective NodeId.promptDynamic := fun a b h => by
    injection h
  have hinj2 : Function.Injective NodeId.promptGuardrail := fun a b h => by
    injection h
  have hA : (if (specPrompt spec).system_prompt.isSome then [NodeId.promptSystem]
      else []).Nodup := by
    split <;> simp
  have hC : (if (specPrompt spec).few_shot_examples.isSome then [NodeId.promptFewshot]
      else []).Nodup := by
    split <;> simp
  unfold promptIds
  rw [List.nodup_append, List.nodup_append, List.nodup_append]
  refine ⟨⟨⟨hA, List.Nodup.map hinj1 (List.nodup_range _), ?_⟩,
    hC, ?_⟩, List.Nodup.map hinj2 (List.nodup_range _), ?_⟩
  · intro a ha hb
    obtain ⟨i, _, heq⟩ := List.mem_map.1 hb
    revert ha
    split
    · intro ha
      rw [List.mem_singleton] at ha
      subst ha
      simp at heq
    · intro ha
      simp at ha
  · intro a ha hb
    have hb' : a = NodeId.promptFewshot := by
      revert hb
      split
      · intro hb
        rwa [List.mem_singleton] at hb
      · intro hb
        simp at hb
    subst hb'
    rcases List.mem_append.1 ha with ha1 | ha1
    · revert ha1
      split
      · intro ha1
        simp at ha1
      · intro ha1
        simp at ha1
    · obtain ⟨i, _, heq⟩ := List.mem_map.1 ha1
      simp at heq
  · intro a ha hb
    obtain ⟨i, _, heq⟩ := List.mem_map.1 hb
    subst heq
    rcases List.mem_append.1 ha with ha1 | ha1
    · rcases List.mem_append.1 ha1 with ha2 | ha2
      · revert ha2
        split
        · intro ha2
          simp at ha2
        · intro ha2
          simp at ha2
      · obtain ⟨j, _, heq2⟩ := List.mem_map.1 ha2
        simp at heq2
    · revert ha1
      split
      · intro ha1
        simp at ha1
      · intro ha1
        simp at ha1

lemma promptNodes_pairwise (spec : AgentSpec) :
    (promptNodes spec none).Pairwise layoutSep := by
  unfold promptNodes
  rw [List.pairwise_map]
  refine (pairwise_zip (promptIds_nodup spec)
    (spreadCentred_pairwise (promptCount spec) PROMPT_W PROMPT_H_GAP
      CONTENT_CENTER_X (by norm_num [PROMPT_W]) (by norm_num [PROMPT_H_GAP]))).imp ?_
  intro p q hpq
  rw [mkNode_none, mkNode_none]
  exact ⟨hpq.1, no_overlap_of_le_x hpq.2⟩

lemma inputNodes_pairwise (spec : AgentSpec) :
    (inputNodes spec none).Pairwise layoutSep := by
  unfold inputNodes
  rw [List.pairwise_map]
  refine (List.pairwise_lt_range _).imp ?_
  intro a b hab
  rw [mkNode_none, mkNode_none]
  refine ⟨by simp; omega, no_overlap_of_le_y ?_⟩
  have h1 : (a : ℚ) + 1 ≤ (b : ℚ) := by exact_mod_cast hab
  show inputGroupTop spec + (a : ℚ) * (INPUT_H + V_GAP) + INPUT_H
    ≤ inputGroupTop spec + (b : ℚ) * (INPUT_H + V_GAP)
  norm_num [INPUT_H, V_GAP]
  nlinarith

lemma outputNodes_pairwise (spec : AgentSpec) :
    (outputNodes spec none).Pairwise layoutSep := by
  unfold outputNodes
  rw [List.pairwise_map]
  refine (pairwise_zip (List.pairwise_lt_range _)
    (spreadCentred_pairwise ((specOutputs spec).length) OUTPUT_W OUTPUT_H_GAP
      CONTENT_CENTER_X (by norm_num [OUTPUT_W]) (by norm_num [OUTPUT_H_GAP]))).imp ?_
  intro p q hpq
  rw [mkNode_none, mkNode_none]
  refine ⟨by simp; omega, no_overlap_of_le_x hpq.2⟩

lemma toolGroupNodes_pairwise (gs : ℚ) (ti : ℕ) (t : Tool) (g : ToolGroup) :
    (toolGroupNodes none gs ti t g).Pairwise layoutSep := by
  unfold toolGroupNodes
  rw [List.pairwise_cons]
  constructor
  · intro m hm
    obtain ⟨si, hsi, rfl⟩ := List.mem_map.1 hm
    rw [mkNode_none, mkNode_none]
    refine ⟨by simp, no_overlap_of_le_x ?_⟩
    show TOOL_X + TOOL_W ≤ SYS_X
    norm_num [TOOL_X, TOOL_W, SYS_X, AGENT_X, AGENT_W, INPUT_X, INPUT_W, H_GAP]
  · rw [List.pairwise_map]
    refine (List.pairwise_lt_range _).imp ?_
    intro a b hab
    rw [mkNode_none, mkNode_none]
    refine ⟨by simp; omega, no_overlap_of_le_y ?_⟩
    have h1 : (a : ℚ) + 1 ≤ (b : ℚ) := by exact_mod_cast hab
    show gs + g.centerOffset - sysStackH (t.connected_systems.getD []).length / 2
        + (a : ℚ) * (SYS_H + SYS_V_GAP) + SYS_H
      ≤ gs + g.centerOffset - sysStackH (t.connected_systems.getD []).length / 2
        + (b : ℚ) * (SYS_H + SYS_V_GAP)
    norm_num [SYS_H, SYS_V_GAP]
    nlinarith

lemma toolGroupsOf_props (spec : AgentSpec) (k : ℕ)
    (hk : k < (specTools spec).length) :
    ∃ g t, (toolGroupsOf spec)[k]? = some g ∧ (specTools spec)[k]? = some t
      ∧ g.effectiveH = effectiveH t
      ∧ 0 ≤ g.centerOffset - g.effectiveH / 2
      ∧ g.centerOffset + g.effectiveH / 2 ≤ toolColH spec :=
  toolGroupLoop_get (specTools spec) 0 k hk

lemma toolZoneNodes_pairwise (spec : AgentSpec) :
    (toolZoneNodes spec none).Pairwise layoutSep := by
  unfold toolZoneNodes
  rw [List.pairwise_flatMap]
  constructor
  · intro p hp
    exact toolGroupNodes_pairwise _ _ _ _
  · rw [List.pairwise_iff_getElem]
    intro a b ha hb hab
    have hzl : ((specTools spec).zip (toolGroupsOf spec)).length
        = (specTools spec).length := by
      rw [List.length_zip]
      unfold toolGroupsOf
      rw [toolGroupLoop_fst_length, min_self]
    have ha' : a < (specTools spec).length := by
      rw [List.enum_length, hzl] at ha
      exact ha
    have hb' : b < (specTools spec).length := by
      rw [List.enum_length, hzl] at hb
      exact hb
    rw [List.getElem_enum, List.getElem_enum, List.getElem_zip, List.getElem_zip]
    intro m hm n hn
    -- identify the group/tool pairs with the loop facts
    obtain ⟨ga, ta, hga, hta, hlinka, hloa, hhia⟩ := toolGroupsOf_props spec a ha'
    obtain ⟨gb, tb, hgb, htb, hlinkb, hlob, hhib⟩ := toolGroupsOf_props spec b hb'
    have hlena : a < (toolGroupsOf spec).length := by
      unfold toolGroupsOf
      rw [toolGroupLoop_fst_length]
      exact ha'
    have hlenb : b < (toolGroupsOf spec).length := by
      unfold toolGroupsOf
      rw [toolGroupLoop_fst_length]
      exact hb'
    have hga' : (toolGroupsOf spec)[a] = ga := List.getElem_eq_iff.2 hga
    have hgb' : (toolGroupsOf spec)[b] = gb := List.getElem_eq_iff.2 hgb
    have hta' : (specTools spec)[a] = ta := List.getElem_eq_iff.2 hta
    have htb' : (specTools spec)[b] = tb := List.getElem_eq_iff.2 htb
    rw [hga', hta'] at hm
    rw [hgb', htb'] at hn
    obtain ⟨hidm, hm_lo, hm_hi⟩ := mem_toolGroupNodes_band hlinka hm
    obtain ⟨hidn, hn_lo, hn_hi⟩ := mem_toolGroupNodes_band hlinkb hn
    have hsep := toolGroupLoop_sep (specTools spec) 0 a b hab ga gb hga hgb
    constructor
    · rcases hidm with ⟨h1, -, -⟩ | ⟨si, h1, -, -⟩ <;>
        rcases hidn with ⟨h2, -, -⟩ | ⟨sj, h2, -, -⟩ <;>
          rw [h1, h2] <;> simp <;> omega
    · apply no_overlap_of_le_y
      have hV : (0 : ℚ) < V_GAP := by norm_num [V_GAP]
      linarith

/-! ### Full-layout separation -/

lemma layout_pairwise_sep (spec : AgentSpec) (vm : ViewMode) :
    (buildDiagramLayout spec vm none).Pairwise layoutSep := by
  have h30 : (30 : ℚ) ≤ mainRowTop spec := by
    have h := mainRowTop_ge spec
    norm_num [PROMPT_TOP] at h
    exact h
  have h140 : (140 : ℚ) ≤ mainRowH spec := by
    have h := AGENT_H_le_mainRowH spec
    norm_num [AGENT_H] at h
    exact h
  have hout := mainRow_bottom_le_outputTop spec
  unfold buildDiagramLayout
  rw [List.pairwise_cons]
  constructor
  · intro n hn
    rw [mkNode_none]
    rcases List.mem_append.1 hn with h1 | hOut
    · rcases List.mem_append.1 h1 with h2 | hTool
      · rcases List.mem_append.1 h2 with hPrompt | hInput
        · obtain ⟨hid, hy, hh, hcnt⟩ := mem_promptNodes_shape spec hPrompt
          constructor
          · rcases hid with h | ⟨i, h⟩ | h | ⟨i, h⟩ <;> rw [h] <;> simp
          · apply no_overlap_of_le_y'
            rw [hy, hh]
            have ha := (agentY_band spec).1
            have hp := prompt_bottom_le_mainRowTop spec hcnt
            dsimp only
            linarith
        · obtain ⟨⟨i, hid⟩, hx, hw, -, -⟩ := mem_inputNodes_shape spec hInput
          constructor
          · rw [hid]; simp
          · apply no_overlap_of_le_x'
            rw [hx, hw]
            dsimp only
            norm_num [INPUT_X, INPUT_W, AGENT_X, H_GAP]
      · obtain ⟨hid, hxw, -, -⟩ := mem_toolZoneNodes_shape spec hTool
        constructor
        · rcases hid with ⟨ti, h⟩ | ⟨ti, si, h⟩ <;> rw [h] <;> simp
        · apply no_overlap_of_le_x
          dsimp only
          rcases hxw with ⟨hx, -⟩ | ⟨hx, -⟩ <;> rw [hx] <;>
            norm_num [AGENT_X, AGENT_W, TOOL_X, SYS_X, TOOL_W, INPUT_X, INPUT_W, H_GAP]
    · obtain ⟨⟨i, hid⟩, hy, hh⟩ := mem_outputNodes_shape spec hOut
      constructor
      · rw [hid]; simp
      · apply no_overlap_of_le_y
        rw [hy]
        have ha := (agentY_band spec).2
        dsimp only
        linarith
  · rw [List.pairwise_append]
    refine ⟨?_, outputNodes_pairwise spec, ?_⟩
    · rw [List.pairwise_append]
      refine ⟨?_, toolZoneNodes_pairwise spec, ?_⟩
      · rw [List.pairwise_append]
        refine ⟨promptNodes_pairwise spec, inputNodes_pairwise spec, ?_⟩
        intro m hm n hn
        obtain ⟨hidm, hy, hh, hcnt⟩ := mem_promptNodes_shape spec hm
        obtain ⟨⟨i, hidn⟩, -, -, hny, -⟩ := mem_inputNodes_shape spec hn
        constructor
        · rcases hidm with h | ⟨j, h⟩ | h | ⟨j, h⟩ <;> rw [h, hidn] <;> simp
        · apply no_overlap_of_le_y
          rw [hy, hh]
          have hp := prompt_bottom_le_mainRowTop spec hcnt
          linarith
      · intro m hm n hn
        obtain ⟨hidn, hnxw, hny, -⟩ := mem_toolZoneNodes_shape spec hn
        rcases List.mem_append.1 hm with hP | hI
        · obtain ⟨hidm, hy, hh, hcnt⟩ := mem_promptNodes_shape spec hP
          constructor
          · rcases hidm with h | ⟨j, h⟩ | h | ⟨j, h⟩ <;>
              rcases hidn with ⟨ti, h2⟩ | ⟨ti, si, h2⟩ <;> rw [h, h2] <;> simp
          · apply no_overlap_of_le_y
            rw [hy, hh]
            have hp := prompt_bottom_le_mainRowTop spec hcnt
            linarith
        · obtain ⟨⟨i, hidm⟩, hx, hw, -, -⟩ := mem_inputNodes_shape spec hI
          constructor
          · rcases hidn with ⟨ti, h2⟩ | ⟨ti, si, h2⟩ <;> rw [hidm, h2] <;> simp
          · apply no_overlap_of_le_x
            rw [hx, hw]
            rcases hnxw with ⟨hx2, -⟩ | ⟨hx2, -⟩ <;> rw [hx2] <;>
              norm_num [INPUT_X, INPUT_W, TOOL_X, TOOL_W, SYS_X, AGENT_X,
                AGENT_W, H_GAP]
    · intro m hm n hn
      obtain ⟨⟨i, hidn⟩, hny, -⟩ := mem_outputNodes_shape spec hn
      rcases List.mem_append.1 hm with h1 | hT
      · rcases List.mem_append.1 h1 with hP | hI
        · obtain ⟨hidm, hy, hh, hcnt⟩ := mem_promptNodes_shape spec hP
          constructor
          · rcases hidm with h | ⟨j, h⟩ | h | ⟨j, h⟩ <;> rw [h, hidn] <;> simp
          · apply no_overlap_of_le_y
            rw [hy, hh, hny]
            norm_num [PROMPT_TOP, PROMPT_H]
            linarith
        · obtain ⟨⟨j, hidm⟩, -, -, -, hmy⟩ := mem_inputNodes_shape spec hI
          constructor
          · rw [hidm, hidn]; simp
          · apply no_overlap_of_le_y
            rw [hny]
            linarith
      · obtain ⟨hidm, -, -, hmy⟩ := mem_toolZoneNodes_shape spec hT
        constructor
        · rcases hidm with ⟨ti, h⟩ | ⟨ti, si, h⟩ <;> rw [h, hidn] <;> simp
        · apply no_overlap_of_le_y
          rw [hny]
          linarith

/-! ## Claim C1 — overlap-freedom of the default layout -/

/-- C1: for every specification and either view mode, no two distinct nodes
of the default (no saved positions) layout have overlapping bounding boxes
(position plus declared width/height). -/
theorem layout_overlap_free (spec : AgentSpec) (vm : ViewMode) :
    (buildDiagramLayout spec vm none).Pairwise (fun m n => ¬ boxesOverlap m n) :=
  (layout_pairwise_sep spec vm).imp (fun h => h.2)

lemma layout_ids_nodup (spec : AgentSpec) (vm : ViewMode) :
    ((buildDiagramLayout spec vm none).map (fun n => n.id)).Nodup :=
  List.pairwise_map.2 ((layout_pairwise_sep spec vm).imp (fun h => h.1))

/-- Shared concrete fixture: a minimal specification. -/
def specMin : AgentSpec :=
  ⟨("spec-1"), ("Agent"), none, none, none, none, none⟩

/-! ## Claim C2 — auto-layout is a fixed point of layout-with-override -/

lemma posLookup_graph (l : List DiagNode)
    (hnd : (l.map (fun n => n.id)).Nodup) {n : DiagNode} (hn : n ∈ l) :
    posLookup (l.map (fun m => (m.id, m.pos))) n.id = some n.pos := by
  induction l with
  | nil => cases hn
  | cons a l ih =>
    rw [List.map_cons, List.nodup_cons] at hnd
    rcases List.mem_cons.1 hn with rfl | hn'
    · simp [posLookup]
    · have hne : a.id ≠ n.id := by
        intro he
        exact hnd.1 (he ▸ List.mem_map.2 ⟨n, hn', rfl⟩)
      rw [List.map_cons]
      unfold posLookup
      rw [if_neg hne]
      exact ih hnd.2 hn'

/-- C2: supplying the position map produced by `computeAutoLayout` as the
saved positions reproduces the default layout exactly, for either view
mode. -/
theorem autoLayout_fixed_point (spec : AgentSpec) (vm : ViewMode) :
    buildDiagramLayout spec vm (some (computeAutoLayout spec))
      = buildDiagramLayout spec vm none := by
  rw [buildDiagramLayout_override]
  conv_rhs => rw [← List.map_id (buildDiagramLayout spec vm none)]
  apply List.map_congr_left
  intro n hn
  unfold overrideWith computeAutoLayout
  have hvm : buildDiagramLayout spec ViewMode.architecture none
      = buildDiagramLayout spec vm none := rfl
  rw [hvm]
  simp only [Option.some_bind]
  rw [posLookup_graph _ (layout_ids_nodup spec vm) hn]
  rfl

/-! ## Claim C3 — position stickiness of a single saved override -/

/-- C3: a saved map holding exactly one node id of the layout re-places
exactly that node at the saved coordinates; every other node keeps its
computed default position, and no node's size or type comes from the
map. -/
theorem position_stickiness (spec : AgentSpec) (vm : ViewMode)
    (k : NodeId) (p : Pos)
    (hk : k ∈ (buildDiagramLayout spec vm none).map (fun n => n.id)) :
    buildDiagramLayout spec vm (some [(k, p)])
      = (buildDiagramLayout spec vm none).map
          (fun n => if n.id = k then { n with pos := p } else n)
    ∧ ∃ n ∈ buildDiagramLayout spec vm (some [(k, p)]), n.id = k ∧ n.pos = p := by
  have hmap : buildDiagramLayout spec vm (some [(k, p)])
      = (buildDiagramLayout spec vm none).map
          (fun n => if n.id = k then { n with pos := p } else n) := by
    rw [buildDiagramLayout_override]
    apply List.map_congr_left
    intro n hn
    unfold overrideWith
    simp only [Option.some_bind]
    by_cases he : n.id = k
    · unfold posLookup
      rw [if_pos he.symm, if_pos he]
      rfl
    · unfold posLookup
      rw [if_neg (fun h2 => he h2.symm), if_neg he]
      rfl
  refine ⟨hmap, ?_⟩
  obtain ⟨n, hn, hid⟩ := List.mem_map.1 hk
  rw [hmap]
  exact ⟨{ n with pos := p }, List.mem_map.2 ⟨n, hn, by rw [if_pos hid]⟩, hid, rfl⟩

theorem position_stickiness_witness :
    (NodeId.agent ("spec-1")
        ∈ (buildDiagramLayout specMin ViewMode.architecture none).map
            (fun n => n.id))
    ∧ (buildDiagramLayout specMin ViewMode.architecture
          (some [(NodeId.agent ("spec-1"), ⟨7, 8⟩)])
        = (buildDiagramLayout specMin ViewMode.architecture none).map
            (fun n => if n.id = NodeId.agent ("spec-1")
              then { n with pos := ⟨7, 8⟩ } else n)
      ∧ ∃ n ∈ buildDiagramLayout specMin ViewMode.architecture
            (some [(NodeId.agent ("spec-1"), ⟨7, 8⟩)]),
          n.id = NodeId.agent ("spec-1") ∧ n.pos = ⟨7, 8⟩) := by
  have hmem : NodeId.agent ("spec-1")
      ∈ (buildDiagramLayout specMin ViewMode.architecture none).map
          (fun n => n.id) := by
    rw [show (buildDiagramLayout specMin ViewMode.architecture none).map
        (fun n => n.id) = [NodeId.agent ("spec-1")] by decide]
    exact List.mem_singleton.2 rfl
  exact ⟨hmem, position_stickiness specMin ViewMode.architecture
    (NodeId.agent ("spec-1")) ⟨7, 8⟩ hmem⟩

/-! ## Claim C6 — alignment correctness (align top) -/

/-- C6: for every selection of at least 2 nodes, "align top" maps each
selected node to the same node with its y coordinate replaced by the
minimum pre-alignment y among the selected nodes (x untouched), and
returns every non-selected node unchanged. -/
theorem align_top_correct (nodes : List FlowNode)
    (h2 : 2 ≤ (nodes.filter (fun n => n.selected)).length) :
    handleAlign AlignDir.top nodes
      = nodes.map (fun n =>
          if n.selected then
            { n with position :=
                ⟨n.position.x,
                  listMin ((nodes.filter (fun m => m.selected)).map
                    (fun m => m.position.y))⟩ }
          else n) := by
  unfold handleAlign
  rw [if_neg (by omega)]

/-- Shared concrete fixture: three selected nodes and one unselected. -/
def alignFixture : List FlowNode :=
  [⟨NodeId.input 0, ⟨5, 40⟩, none, none, some 10, some 10, true⟩,
    ⟨NodeId.input 1, ⟨50, 7⟩, none, none, some 10, some 10, true⟩,
    ⟨NodeId.input 2, ⟨90, 23⟩, none, none, some 10, some 10, true⟩,
    ⟨NodeId.output 0, ⟨200, 300⟩, none, none, some 10, some 10, false⟩]

theorem align_top_correct_witness :
    2 ≤ (alignFixture.filter (fun n => n.selected)).length
    ∧ handleAlign AlignDir.top alignFixture
        = alignFixture.map (fun n =>
            if n.selected then
              { n with position :=
                  ⟨n.position.x,
                    listMin ((alignFixture.filter (fun m => m.selected)).map
                      (fun m => m.position.y))⟩ }
            else n) :=
  ⟨by decide, align_top_correct alignFixture (by decide)⟩

/-! ## Claim C10 — distribution moves nodes only along its own axis -/

/-- C10: horizontal distribution leaves every node's y coordinate unchanged
and vertical distribution leaves every node's x coordinate unchanged; in
both cases every non-selected node is returned entirely unchanged. -/
theorem distribute_frame_effect (nodes : List FlowNode) :
    List.Forall₂ (fun a b => b.position.y = a.position.y
        ∧ (a.selected = false → b = a))
      nodes (handleDistribute DistributeDir.h nodes)
    ∧ List.Forall₂ (fun a b => b.position.x = a.position.x
        ∧ (a.selected = false → b = a))
      nodes (handleDistribute DistributeDir.v nodes) := by
  constructor <;>
  · unfold handleDistribute
    by_cases hc : (nodes.filter (fun n => n.selected)).length < 3
    · rw [if_pos hc]
      exact List.forall₂_same.2 (fun x _ => ⟨rfl, fun _ => rfl⟩)
    · rw [if_neg hc]
      refine List.forall₂_map_right_iff.2 (List.forall₂_same.2 (fun x _ => ?_))
      by_cases hs : x.selected = true
      · simp [hs]
      · simp [hs]

/-! ## Claim C8 — rollback on persistence failure -/

/-- C8 (amended): when a field-patch save fails, the optimistic spec is
rolled back to the pre-edit snapshot, the in-memory position map is
untouched and the saving indicator clears; when a position-map save fails
after a drag stop, the saving indicator clears and the locally held spec
object is unchanged, but the in-memory position map retains the post-drag
positions — position edits are not rolled back. -/
theorem save_failure_rollback (st : ControllerState) (patch : SpecPatch)
    (moved : List (NodeId × Pos)) :
    (handleNodeEditRun st patch (Except.error ())).spec = st.spec
    ∧ (handleNodeEditRun st patch (Except.error ())).isSaving = false
    ∧ (handleNodeEditRun st patch (Except.error ())).positions = st.positions
    ∧ (savePositionsRun (recordDragStop st moved) (Except.error ())).isSaving = false
    ∧ (savePositionsRun (recordDragStop st moved) (Except.error ())).spec = st.spec
    ∧ (savePositionsRun (recordDragStop st moved) (Except.error ())).positions
        = (recordDragStop st moved).positions :=
  ⟨rfl, rfl, rfl, rfl, rfl, rfl⟩

def dragState : ControllerState := ⟨specMin, [], false⟩

def dragMoved : List (NodeId × Pos) := [(NodeId.input 0, ⟨1, 2⟩)]

/-- C8 counterexample: after a drag stop followed by a failed position-map
save, the locally held position map still holds the dragged position — it
does not equal the pre-edit (empty) map, refuting the claimed rollback for
position saves. -/
theorem save_failure_rollback_counterexample :
    (savePositionsRun (recordDragStop dragState dragMoved)
        (Except.error ())).positions ≠ dragState.positions
    ∧ (savePositionsRun (recordDragStop dragState dragMoved)
        (Except.error ())).isSaving = false := by
  refine ⟨?_, rfl⟩
  intro hcontra
  simpa [savePositionsRun, recordDragStop, posStore, dragState, dragMoved] using hcontra

/-! ## Claim C9 — tool output-token edit round-trip -/

/-- A tool whose optional fields are already in the detail form's normal
form: token and connected-system fields present, `build_effort` not the
empty string (the form rewrites `""` to absent). -/
def normalTool (t : Tool) : Prop :=
  t.build_effort ≠ some ("") ∧ t.input_tokens_per_call.isSome
    ∧ t.output_tokens_per_call.isSome ∧ t.output_cache_hit_pct.isSome
    ∧ t.connected_systems.isSome

instance (t : Tool) : Decidable (normalTool t) := by
  unfold normalTool
  infer_instance

lemma set_getElem?_self {α : Type _} {l : List α} {i : ℕ} {a : α}
    (h : l[i]? = some a) : l.set i a = l := by
  apply List.ext_getElem?
  intro j
  by_cases hj : i = j
  · subst hj
    rw [List.getElem?_set_self (List.getElem?_eq_some_iff.1 h).1, h]
  · rw [List.getElem?_set_ne hj]

lemma formNormalize_of_normal {t : Tool} (h : normalTool t) :
    formNormalize t (t.output_tokens_per_call.getD 0) = t := by
  obtain ⟨hbe, hin, hout, hpct, hcs⟩ := h
  rcases t with ⟨tn, tty, tst, tbe, tin, tout, tpct, tcs⟩
  simp only [Option.isSome_iff_exists] at hin hout hpct hcs
  obtain ⟨vin, rfl⟩ := hin
  obtain ⟨vout, rfl⟩ := hout
  obtain ⟨vpct, rfl⟩ := hpct
  obtain ⟨vcs, rfl⟩ := hcs
  unfold formNormalize
  cases tbe with
  | none => simp
  | some s =>
    have hs : ¬ s = "" := fun hs0 => hbe (by rw [hs0])
    simp [hs]

lemma formNormalize_idem (t : Tool) (v w : ℚ) :
    formNormalize (formNormalize t v) w = formNormalize t w := by
  rcases t with ⟨tn, tty, tst, tbe, tin, tout, tpct, tcs⟩
  unfold formNormalize
  cases tbe with
  | none => simp
  | some s =>
    by_cases hs : s = ""
    · simp [hs]
    · simp [hs]

lemma editToolOutputTokens_eq {spec : AgentSpec} {ti : ℕ} {t : Tool} (v : ℚ)
    (hts : (spec.tool_stack.getD [])[ti]? = some t) :
    editToolOutputTokens spec ti v
      = { spec with tool_stack := some ((spec.tool_stack.getD []).set ti (formNormalize t v)) } := by
  unfold editToolOutputTokens toolFormPatch
  rw [hts]
  rfl

/-- C9 (amended): editing a tool's output-token count to a new value and
then editing it back to the originally displayed value restores the
original specification exactly, provided the tool's optional fields are in
the form's normal form (token counts, cache percentage and connected
systems present; `build_effort` not the empty string) — the form save
rewrites absent optional fields to their displayed defaults, so a tool
outside normal form is normalised by the first save and the round trip
returns the normalised, not the original, specification. -/
theorem tool_edit_roundtrip (spec : AgentSpec) (ti : ℕ) (v : ℚ)
    (h : ∀ t, (spec.tool_stack.getD [])[ti]? = some t → normalTool t) :
    editToolOutputTokens (editToolOutputTokens spec ti v) ti
      (displayedOutputTok spec ti) = spec := by
  cases hts : (spec.tool_stack.getD [])[ti]? with
  | none =>
    have h1 : editToolOutputTokens spec ti v = spec := by
      unfold editToolOutputTokens toolFormPatch
      rw [hts]
    rw [h1]
    unfold editToolOutputTokens toolFormPatch
    rw [hts]
  | some t =>
    have hnorm := h t hts
    have hlen : ti < (spec.tool_stack.getD []).length :=
      (List.getElem?_eq_some_iff.1 hts).1
    obtain ⟨ts0, hts0⟩ : ∃ ts0, spec.tool_stack = some ts0 := by
      cases hts' : spec.tool_stack with
      | none =>
        rw [hts'] at hts
        simp at hts
      | some ts0 => exact ⟨ts0, rfl⟩
    have hdisp : displayedOutputTok spec ti = t.output_tokens_per_call.getD 0 := by
      unfold displayedOutputTok
      rw [hts]
      rfl
    rw [editToolOutputTokens_eq v hts]
    have hts1 : ((({ spec with tool_stack := some ((spec.tool_stack.getD []).set ti (formNormalize t v)) } : AgentSpec).tool_stack.getD []))[ti]? = some (formNormalize t v) :=
      List.getElem?_set_self hlen
    rw [editToolOutputTokens_eq (displayedOutputTok spec ti) hts1]
    have hfinal : ((spec.tool_stack.getD []).set ti (formNormalize t v)).set ti
          (formNormalize (formNormalize t v) (displayedOutputTok spec ti))
        = spec.tool_stack.getD [] := by
      rw [formNormalize_idem, hdisp, formNormalize_of_normal hnorm, List.set_set]
      exact set_getElem?_self hts
    simp only
    rw [show (({ spec with tool_stack := some ((spec.tool_stack.getD []).set ti (formNormalize t v)) } : AgentSpec).tool_stack.getD [])
        = (spec.tool_stack.getD []).set ti (formNormalize t v) from rfl]
    rw [hfinal, hts0]
    simp only [Option.getD_some]
    rw [← hts0]

/-- Shared fixture: a tool in form-normal shape and one outside it. -/
def toolGood : Tool :=
  ⟨("Orders API"), ("mcp_server"), ("new"), none, some 3, some 5, some 0, some []⟩

def specGood : AgentSpec :=
  ⟨("s3"), ("A"), none, none, some [toolGood], none, none⟩

def toolBad : Tool :=
  ⟨("Orders API"), ("mcp_server"), ("new"), none, none, some 5, some 0, some []⟩

def specBad : AgentSpec :=
  ⟨("s2"), ("A"), none, none, some [toolBad], none, none⟩

theorem tool_edit_roundtrip_witness :
    (∀ t, (specGood.tool_stack.getD [])[0]? = some t → normalTool t)
    ∧ editToolOutputTokens (editToolOutputTokens specGood 0 7) 0
        (displayedOutputTok specGood 0) = specGood := by
  have hyp : ∀ t, (specGood.tool_stack.getD [])[0]? = some t → normalTool t := by
    intro t ht
    have h0 : (specGood.tool_stack.getD [])[0]? = some toolGood := rfl
    rw [h0] at ht
    rw [← Option.some.inj ht]
    decide
  exact ⟨hyp, tool_edit_roundtrip specGood 0 7 hyp⟩

/-- C9 counterexample: for a tool whose `input_tokens_per_call` is absent,
editing the output-token count and editing it back does not restore the
original specification — the first save materialises the displayed default
`0` into the field. -/
theorem tool_edit_roundtrip_counterexample :
    editToolOutputTokens (editToolOutputTokens specBad 0 7) 0
      (displayedOutputTok specBad 0) ≠ specBad := by
  decide

/-! ## Snap engine: candidate-scan characterisation -/

lemma foldl_stepPair_spec (ps : List (ℚ × ℚ)) (acc : AxisAcc) :
    (ps.foldl stepPair acc).minD ≤ acc.minD
    ∧ (∀ q ∈ ps, (ps.foldl stepPair acc).minD ≤ |q.1 - q.2|)
    ∧ ((∀ q ∈ ps, acc.minD ≤ |q.1 - q.2|) → ps.foldl stepPair acc = acc)
    ∧ ((∃ q ∈ ps, |q.1 - q.2| < acc.minD) →
        ∃ q ∈ ps, |q.1 - q.2| = (ps.foldl stepPair acc).minD
          ∧ (ps.foldl stepPair acc).bestDelta = some (q.2 - q.1)
          ∧ (ps.foldl stepPair acc).bestLinePos = some q.2
          ∧ (ps.foldl stepPair acc).minD < acc.minD) := by
  induction ps generalizing acc with
  | nil => simp
  | cons p ps ih =>
    obtain ⟨ih1, ih2, ih3, ih4⟩ := ih (stepPair acc p)
    rw [List.foldl_cons]
    by_cases hp : |p.1 - p.2| < acc.minD
    · have hstep : stepPair acc p = ⟨some (p.2 - p.1), some p.2, |p.1 - p.2|⟩ := by
        unfold stepPair
        rw [if_pos hp]
      refine ⟨?_, ?_, ?_, ?_⟩
      · have h2 : (stepPair acc p).minD ≤ acc.minD := by
          rw [hstep]
          exact le_of_lt hp
        linarith
      · intro q hq
        rcases List.mem_cons.1 hq with rfl | hq'
        · have h2 : (stepPair acc q).minD = |q.1 - q.2| := by rw [hstep]
          linarith
        · exact ih2 q hq'
      · intro hall
        exact absurd (hall p (List.mem_cons_self p ps)) (not_le.2 hp)
      · intro _
        by_cases hex : ∃ q ∈ ps, |q.1 - q.2| < (stepPair acc p).minD
        · obtain ⟨q, hq, h1, h2, h3, h4⟩ := ih4 hex
          refine ⟨q, List.mem_cons_of_mem p hq, h1, h2, h3, ?_⟩
          have h5 : (stepPair acc p).minD ≤ acc.minD := by
            rw [hstep]
            exact le_of_lt hp
          linarith
        · push_neg at hex
          have heq : ps.foldl stepPair (stepPair acc p) = stepPair acc p :=
            ih3 hex
          refine ⟨p, List.mem_cons_self p ps, ?_, ?_, ?_, ?_⟩ <;>
            rw [heq, hstep]
          exact hp
    · have hstep : stepPair acc p = acc := by
        unfold stepPair
        rw [if_neg hp]
      rw [hstep] at ih1 ih2 ih3 ih4 ⊢
      refine ⟨ih1, ?_, ?_, ?_⟩
      · intro q hq
        rcases List.mem_cons.1 hq with rfl | hq'
        · exact le_trans ih1 (not_lt.1 hp)
        · exact ih2 q hq'
      · intro hall
        exact ih3 (fun q hq => hall q (List.mem_cons_of_mem p hq))
      · intro hex
        obtain ⟨q, hq, hlt⟩ := hex
        rcases List.mem_cons.1 hq with rfl | hq'
        · exact absurd hlt hp
        · obtain ⟨q2, hq2, h1, h2, h3, h4⟩ := ih4 ⟨q, hq', hlt⟩
          exact ⟨q2, List.mem_cons_of_mem p hq2, h1, h2, h3, h4⟩

lemma snap_foldl_prod (bbox : BBox) (others : List FlowNode)
    (a : AxisAcc × AxisAcc) :
    others.foldl
        (fun (a : AxisAcc × AxisAcc) o =>
          ((xPairs bbox (getEdges o)).foldl stepPair a.1,
            (yPairs bbox (getEdges o)).foldl stepPair a.2)) a
      = ((xCandidates bbox others).foldl stepPair a.1,
          (yCandidates bbox others).foldl stepPair a.2) := by
  induction others generalizing a with
  | nil => simp [xCandidates, yCandidates]
  | cons o os ih =>
    rw [List.foldl_cons, ih]
    unfold xCandidates yCandidates
    simp [List.foldl_append]

lemma computeSnapGuides_main (dragging allNodes : List FlowNode) (threshold : ℚ)
    (hd : dragging ≠ []) (ho : snapOthers dragging allNodes ≠ []) :
    computeSnapGuides dragging allNodes threshold
      = ⟨(match ((xCandidates (getBBox dragging) (snapOthers dragging allNodes)).foldl
              stepPair ⟨none, none, threshold⟩).bestLinePos with
          | some p => [SnapLine.mk SnapLineType.v p]
          | none => [])
          ++ (match ((yCandidates (getBBox dragging) (snapOthers dragging allNodes)).foldl
              stepPair ⟨none, none, threshold⟩).bestLinePos with
          | some p => [SnapLine.mk SnapLineType.h p]
          | none => []),
        ((xCandidates (getBBox dragging) (snapOthers dragging allNodes)).foldl
            stepPair ⟨none, none, threshold⟩).bestDelta.getD 0,
        ((yCandidates (getBBox dragging) (snapOthers dragging allNodes)).foldl
            stepPair ⟨none, none, threshold⟩).bestDelta.getD 0⟩ := by
  have hoe : (allNodes.filter
      (fun n => !((dragging.map (fun n => n.id)).contains n.id))).isEmpty = false := by
    rw [List.isEmpty_eq_false]
    exact ho
  have hde : dragging.isEmpty = false := by
    rw [List.isEmpty_eq_false]
    exact hd
  unfold computeSnapGuides
  simp only [hoe, hde, Bool.false_eq_true, if_false]
  rw [snap_foldl_prod]
  rfl

/-! ## Claim C4 — snap threshold boundary -/

/-- C4: snapping on an axis fires only when some candidate pair's absolute
distance is strictly below the threshold.  When every candidate pair on an
axis is at distance at least `threshold` (in particular exactly at the
threshold), that axis's delta is zero and no guide line of that axis's
orientation is emitted; when some pair is strictly below the threshold
(distance `threshold − ε`), the result's delta on that axis is exactly the
signed difference (target coordinate minus dragging-bbox coordinate) of a
winning pair of minimal distance, and a guide line at the target
coordinate is emitted. -/
theorem snap_threshold_boundary (dragging allNodes : List FlowNode)
    (threshold : ℚ) (hd : dragging ≠ []) :
    ((∀ q ∈ xCandidates (getBBox dragging) (snapOthers dragging allNodes),
        threshold ≤ |q.1 - q.2|) →
      (computeSnapGuides dragging allNodes threshold).snapDx = 0
      ∧ ∀ sl ∈ (computeSnapGuides dragging allNodes threshold).lines,
          sl.type ≠ SnapLineType.v)
    ∧ ((∃ q ∈ xCandidates (getBBox dragging) (snapOthers dragging allNodes),
        |q.1 - q.2| < threshold) →
      ∃ q ∈ xCandidates (getBBox dragging) (snapOthers dragging allNodes),
        |q.1 - q.2| < threshold
        ∧ (computeSnapGuides dragging allNodes threshold).snapDx = q.2 - q.1
        ∧ SnapLine.mk SnapLineType.v q.2
            ∈ (computeSnapGuides dragging allNodes threshold).lines
        ∧ ∀ q2 ∈ xCandidates (getBBox dragging) (snapOthers dragging allNodes),
            |q.1 - q.2| ≤ |q2.1 - q2.2|)
    ∧ ((∀ q ∈ yCandidates (getBBox dragging) (snapOthers dragging allNodes),
        threshold ≤ |q.1 - q.2|) →
      (computeSnapGuides dragging allNodes threshold).snapDy = 0
      ∧ ∀ sl ∈ (computeSnapGuides dragging allNodes threshold).lines,
          sl.type ≠ SnapLineType.h)
    ∧ ((∃ q ∈ yCandidates (getBBox dragging) (snapOthers dragging allNodes),
        |q.1 - q.2| < threshold) →
      ∃ q ∈ yCandidates (getBBox dragging) (snapOthers dragging allNodes),
        |q.1 - q.2| < threshold
        ∧ (computeSnapGuides dragging allNodes threshold).snapDy = q.2 - q.1
        ∧ SnapLine.mk SnapLineType.h q.2
            ∈ (computeSnapGuides dragging allNodes threshold).lines
        ∧ ∀ q2 ∈ yCandidates (getBBox dragging) (snapOthers dragging allNodes),
            |q.1 - q.2| ≤ |q2.1 - q2.2|) := by
  by_cases ho : snapOthers dragging allNodes = []
  · have hres : computeSnapGuides dragging allNodes threshold = ⟨[], 0, 0⟩ := by
      have hoe : (allNodes.filter
          (fun n => !((dragging.map (fun n => n.id)).contains n.id))).isEmpty
            = true := by
        rw [List.isEmpty_iff]
        exact ho
      unfold computeSnapGuides
      simp only [hoe, if_true]
    have hxc : xCandidates (getBBox dragging) (snapOthers dragging allNodes) = [] := by
      rw [ho]
      rfl
    have hyc : yCandidates (getBBox dragging) (snapOthers dragging allNodes) = [] := by
      rw [ho]
      rfl
    rw [hres, hxc, hyc]
    refine ⟨fun _ => ⟨rfl, by simp⟩, ?_, fun _ => ⟨rfl, by simp⟩, ?_⟩
    · rintro ⟨q, hq, -⟩
      simp at hq
    · rintro ⟨q, hq, -⟩
      simp at hq
  · rw [computeSnapGuides_main dragging allNodes threshold hd ho]
    obtain ⟨hx1, hx2, hx3, hx4⟩ := foldl_stepPair_spec
      (xCandidates (getBBox dragging) (snapOthers dragging allNodes))
      ⟨none, none, threshold⟩
    obtain ⟨hy1, hy2, hy3, hy4⟩ := foldl_stepPair_spec
      (yCandidates (getBBox dragging) (snapOthers dragging allNodes))
      ⟨none, none, threshold⟩
    refine ⟨?_, ?_, ?_, ?_⟩
    · intro hall
      rw [hx3 hall]
      refine ⟨rfl, ?_⟩
      intro sl hsl
      simp only at hsl
      rcases List.mem_append.1 hsl with h1 | h1
      · simp at h1
      · revert h1
        split
        · intro h1
          rw [List.mem_singleton.1 h1]
          simp
        · intro h1
          simp at h1
    · intro hex
      obtain ⟨q, hq, hmin, hdelta, hline, hlt⟩ := hx4
        (by
          obtain ⟨q, hq, hlt⟩ := hex
          exact ⟨q, hq, hlt⟩)
      refine ⟨q, hq, by rw [hmin]; exact hlt, by rw [hdelta]; rfl, ?_, ?_⟩
      · simp only
        apply List.mem_append_left
        rw [hline]
        exact List.mem_singleton.2 rfl
      · intro q2 hq2
        rw [hmin]
        exact hx2 q2 hq2
    · intro hall
      rw [hy3 hall]
      refine ⟨rfl, ?_⟩
      intro sl hsl
      simp only at hsl
      rcases List.mem_append.1 hsl with h1 | h1
      · revert h1
        split
        · intro h1
          rw [List.mem_singleton.1 h1]
          simp
        · intro h1
          simp at h1
      · simp at h1
    · intro hex
      obtain ⟨q, hq, hmin, hdelta, hline, hlt⟩ := hy4
        (by
          obtain ⟨q, hq, hlt⟩ := hex
          exact ⟨q, hq, hlt⟩)
      refine ⟨q, hq, by rw [hmin]; exact hlt, by rw [hdelta]; rfl, ?_, ?_⟩
      · simp only
        apply List.mem_append_right
        rw [hline]
        exact List.mem_singleton.2 rfl
      · intro q2 hq2
        rw [hmin]
        exact hy2 q2 hq2

/-! ## Distribution spacing helpers -/

/-- Observation: the position of the (first) node with a given id. -/
def posOfId (l : List FlowNode) (d : NodeId) : Option Pos :=
  (l.find? (fun n => n.id == d)).map (fun n => n.position)

lemma posOfId_cons_pos (b : FlowNode) (rest : List FlowNode) (d : NodeId)
    (h : b.id = d) : posOfId (b :: rest) d = some b.position := by
  unfold posOfId
  rw [List.find?_cons_of_pos]
  · rfl
  · simp [h]

lemma posOfId_cons_neg (b : FlowNode) (rest : List FlowNode) (d : NodeId)
    (h : ¬ b.id = d) : posOfId (b :: rest) d = posOfId rest d := by
  unfold posOfId
  rw [List.find?_cons_of_neg]
  simp [h]

/-- Looking up a node's id in an id-preserving mapped list finds the mapped
node, provided ids are distinct. -/
lemma posOfId_map (nodes : List FlowNode) (f : FlowNode → FlowNode)
    (hid : ∀ n, (f n).id = n.id) (a : FlowNode)
    (hnd : (nodes.map (fun n => n.id)).Nodup) (ha : a ∈ nodes) :
    posOfId (nodes.map f) a.id = some (f a).position := by
  induction nodes with
  | nil => cases ha
  | cons b rest ih =>
    rw [List.map_cons, List.nodup_cons] at hnd
    rcases List.mem_cons.1 ha with rfl | ha'
    · rw [List.map_cons, posOfId_cons_pos _ _ _ (hid a)]
    · have hbne : ¬ (f b).id = a.id := by
        rw [hid b]
        intro he
        apply hnd.1
        rw [he]
        exact List.mem_map_of_mem _ ha'
      rw [List.map_cons, posOfId_cons_neg _ _ _ hbne]
      exact ih hnd.2 ha'

/-- The cursor loop assigns the `k`-th sorted node the cursor value
`x + Σ_{i<k} width(i) + k·gap`. -/
lemma coordLookup_hAssignFrom (gap : ℚ) (l : List FlowNode)
    (hnd : (l.map (fun n => n.id)).Nodup) (x : ℚ) (k : ℕ) (hk : k < l.length) :
    coordLookup (hAssignFrom gap l x) (l[k].id)
      = some (x + ((l.take k).map nodeW).sum + (k : ℚ) * gap) := by
  induction l generalizing x k with
  | nil => simp at hk
  | cons n rest ih =>
    rw [List.map_cons, List.nodup_cons] at hnd
    cases k with
    | zero =>
      simp [hAssignFrom, coordLookup]
    | succ k =>
      have hk' : k < rest.length := by simpa using hk
      have hne : ¬ n.id = (rest[k]).id := by
        intro he
        apply hnd.1
        rw [he]
        exact List.mem_map_of_mem _ (List.getElem_mem hk')
      simp only [hAssignFrom, coordLookup, List.getElem_cons_succ]
      rw [if_neg hne]
      rw [ih hnd.2 (x + nodeW n + gap) k hk']
      rw [List.take_succ_cons, List.map_cons, List.sum_cons]
      congr 1
      push_cast
      ring

/-- Prefix-width sums grow by the `k`-th node's width. -/
lemma take_map_sum_succ (s : List FlowNode) (k : ℕ) (hk : k < s.length) :
    ((s.take (k+1)).map nodeW).sum = ((s.take k).map nodeW).sum + nodeW (s[k]) := by
  rw [List.take_succ, List.getElem?_eq_getElem hk]
  rw [List.map_append, List.sum_append]
  simp [Option.toList]

/-- Unfolding of the horizontal-distribution branch past its guard. -/
lemma handleDistribute_h_eq (nodes : List FlowNode)
    (h3 : ¬ (nodes.filter (fun n => n.selected)).length < 3) :
    handleDistribute DistributeDir.h nodes
      = nodes.map (fun n =>
          if n.selected then
            { n with position := ⟨(coordLookup
                (hAssign (sortedByX (nodes.filter (fun n => n.selected)))
                  (hDistGap (sortedByX (nodes.filter (fun n => n.selected)))))
                n.id).getD n.position.x, n.position.y⟩ }
          else n) := by
  unfold handleDistribute
  simp only [if_neg h3]

/-- Shared snap fixtures: a dragged 10×10 node at the origin, a target
exactly x-aligned far below, and a target 3px off on x. -/
def snapA : FlowNode := ⟨NodeId.input 0, ⟨0, 0⟩, none, none, some 10, some 10, false⟩

def snapB : FlowNode := ⟨NodeId.input 1, ⟨3, 100⟩, none, none, some 10, some 10, false⟩

def snapBAligned : FlowNode :=
  ⟨NodeId.input 1, ⟨0, 100⟩, none, none, some 10, some 10, false⟩

theorem snap_threshold_boundary_witness :
    ([snapA] ≠ [])
    ∧ (((∀ q ∈ xCandidates (getBBox [snapA]) (snapOthers [snapA] [snapA, snapB]),
        (8 : ℚ) ≤ |q.1 - q.2|) →
      (computeSnapGuides [snapA] [snapA, snapB] 8).snapDx = 0
      ∧ ∀ sl ∈ (computeSnapGuides [snapA] [snapA, snapB] 8).lines,
          sl.type ≠ SnapLineType.v)
    ∧ ((∃ q ∈ xCandidates (getBBox [snapA]) (snapOthers [snapA] [snapA, snapB]),
        |q.1 - q.2| < 8) →
      ∃ q ∈ xCandidates (getBBox [snapA]) (snapOthers [snapA] [snapA, snapB]),
        |q.1 - q.2| < 8
        ∧ (computeSnapGuides [snapA] [snapA, snapB] 8).snapDx = q.2 - q.1
        ∧ SnapLine.mk SnapLineType.v q.2
            ∈ (computeSnapGuides [snapA] [snapA, snapB] 8).lines
        ∧ ∀ q2 ∈ xCandidates (getBBox [snapA]) (snapOthers [snapA] [snapA, snapB]),
            |q.1 - q.2| ≤ |q2.1 - q2.2|)
    ∧ ((∀ q ∈ yCandidates (getBBox [snapA]) (snapOthers [snapA] [snapA, snapB]),
        (8 : ℚ) ≤ |q.1 - q.2|) →
      (computeSnapGuides [snapA] [snapA, snapB] 8).snapDy = 0
      ∧ ∀ sl ∈ (computeSnapGuides [snapA] [snapA, snapB] 8).lines,
          sl.type ≠ SnapLineType.h)
    ∧ ((∃ q ∈ yCandidates (getBBox [snapA]) (snapOthers [snapA] [snapA, snapB]),
        |q.1 - q.2| < 8) →
      ∃ q ∈ yCandidates (getBBox [snapA]) (snapOthers [snapA] [snapA, snapB]),
        |q.1 - q.2| < 8
        ∧ (computeSnapGuides [snapA] [snapA, snapB] 8).snapDy = q.2 - q.1
        ∧ SnapLine.mk SnapLineType.h q.2
            ∈ (computeSnapGuides [snapA] [snapA, snapB] 8).lines
        ∧ ∀ q2 ∈ yCandidates (getBBox [snapA]) (snapOthers [snapA] [snapA, snapB]),
            |q.1 - q.2| ≤ |q2.1 - q2.2|)) :=
  ⟨by decide, snap_threshold_boundary [snapA] [snapA, snapB] 8 (by decide)⟩

/-! ## Claim C5 — snap axis independence -/

/-- C5 (amended): the two axes are treated independently.  When some X-axis
candidate pair is within the threshold, no Y-axis pair is, and no X-axis
pair is exactly aligned (distance zero — in that case the delta is zero
while the guide line is still emitted), the result has a non-zero
`snapDx`, `snapDy` zero and exactly one guide line, of vertical type.
With zero non-dragging nodes, or no pair within threshold on an axis, that
axis's delta is zero and no guide line is emitted for it. -/
theorem snap_axis_independence (dragging allNodes : List FlowNode)
    (threshold : ℚ) (hd : dragging ≠ []) :
    ((∃ q ∈ xCandidates (getBBox dragging) (snapOthers dragging allNodes),
        |q.1 - q.2| < threshold) →
      (∀ q ∈ yCandidates (getBBox dragging) (snapOthers dragging allNodes),
        threshold ≤ |q.1 - q.2|) →
      (∀ q ∈ xCandidates (getBBox dragging) (snapOthers dragging allNodes),
        q.1 ≠ q.2) →
      (computeSnapGuides dragging allNodes threshold).snapDx ≠ 0
      ∧ (computeSnapGuides dragging allNodes threshold).snapDy = 0
      ∧ ∃ pos, (computeSnapGuides dragging allNodes threshold).lines
          = [SnapLine.mk SnapLineType.v pos])
    ∧ (snapOthers dragging allNodes = [] →
        computeSnapGuides dragging allNodes threshold = ⟨[], 0, 0⟩)
    ∧ ((∀ q ∈ xCandidates (getBBox dragging) (snapOthers dragging allNodes),
        threshold ≤ |q.1 - q.2|) →
      (computeSnapGuides dragging allNodes threshold).snapDx = 0
      ∧ ∀ sl ∈ (computeSnapGuides dragging allNodes threshold).lines,
          sl.type ≠ SnapLineType.v)
    ∧ ((∀ q ∈ yCandidates (getBBox dragging) (snapOthers dragging allNodes),
        threshold ≤ |q.1 - q.2|) →
      (computeSnapGuides dragging allNodes threshold).snapDy = 0
      ∧ ∀ sl ∈ (computeSnapGuides dragging allNodes threshold).lines,
          sl.type ≠ SnapLineType.h) := by
  have hempty : snapOthers dragging allNodes = [] →
      computeSnapGuides dragging allNodes threshold = ⟨[], 0, 0⟩ := by
    intro ho
    have hoe : (allNodes.filter
        (fun n => !((dragging.map (fun n => n.id)).contains n.id))).isEmpty
          = true := by
      rw [List.isEmpty_iff]
      exact ho
    unfold computeSnapGuides
    simp only [hoe, if_true]
  refine ⟨?_, hempty, ?_, ?_⟩
  · intro hx hy hz
    have ho : snapOthers dragging allNodes ≠ [] := by
      intro ho
      obtain ⟨q, hq, -⟩ := hx
      rw [ho] at hq
      simp [xCandidates] at hq
    rw [computeSnapGuides_main dragging allNodes threshold hd ho]
    obtain ⟨-, hx2, -, hx4⟩ := foldl_stepPair_spec
      (xCandidates (getBBox dragging) (snapOthers dragging allNodes))
      ⟨none, none, threshold⟩
    obtain ⟨-, -, hy3, -⟩ := foldl_stepPair_spec
      (yCandidates (getBBox dragging) (snapOthers dragging allNodes))
      ⟨none, none, threshold⟩
    obtain ⟨q, hq, hmin, hdelta, hline, -⟩ := hx4 hx
    rw [hy3 hy]
    refine ⟨?_, rfl, ⟨q.2, ?_⟩⟩
    · simp only
      rw [hdelta]
      simp only [Option.getD_some]
      intro hzero
      exact hz q hq (by linarith [sub_eq_zero.1 hzero])
    · simp only
      rw [hline]
      rfl
  · intro hall
    by_cases ho : snapOthers dragging allNodes = []
    · rw [hempty ho]
      exact ⟨rfl, by simp⟩
    · rw [computeSnapGuides_main dragging allNodes threshold hd ho]
      obtain ⟨-, -, hx3, -⟩ := foldl_stepPair_spec
        (xCandidates (getBBox dragging) (snapOthers dragging allNodes))
        ⟨none, none, threshold⟩
      rw [hx3 hall]
      refine ⟨rfl, ?_⟩
      intro sl hsl
      simp only at hsl
      rcases List.mem_append.1 hsl with h1 | h1
      · simp at h1
      · revert h1
        split
        · intro h1
          rw [List.mem_singleton.1 h1]
          simp
        · intro h1
          simp at h1
  · intro hall
    by_cases ho : snapOthers dragging allNodes = []
    · rw [hempty ho]
      exact ⟨rfl, by simp⟩
    · rw [computeSnapGuides_main dragging allNodes threshold hd ho]
      obtain ⟨-, -, hy3, -⟩ := foldl_stepPair_spec
        (yCandidates (getBBox dragging) (snapOthers dragging allNodes))
        ⟨none, none, threshold⟩
      rw [hy3 hall]
      refine ⟨rfl, ?_⟩
      intro sl hsl
      simp only at hsl
      rcases List.mem_append.1 hsl with h1 | h1
      · revert h1
        split
        · intro h1
          rw [List.mem_singleton.1 h1]
          simp
        · intro h1
          simp at h1
      · simp at h1

theorem snap_axis_independence_witness :
    ([snapA] ≠ [])
    ∧ (((∃ q ∈ xCandidates (getBBox [snapA]) (snapOthers [snapA] [snapA, snapB]),
        |q.1 - q.2| < 8) →
      (∀ q ∈ yCandidates (getBBox [snapA]) (snapOthers [snapA] [snapA, snapB]),
        (8 : ℚ) ≤ |q.1 - q.2|) →
      (∀ q ∈ xCandidates (getBBox [snapA]) (snapOthers [snapA] [snapA, snapB]),
        q.1 ≠ q.2) →
      (computeSnapGuides [snapA] [snapA, snapB] 8).snapDx ≠ 0
      ∧ (computeSnapGuides [snapA] [snapA, snapB] 8).snapDy = 0
      ∧ ∃ pos, (computeSnapGuides [snapA] [snapA, snapB] 8).lines
          = [SnapLine.mk SnapLineType.v pos])
    ∧ (snapOthers [snapA] [snapA, snapB] = [] →
        computeSnapGuides [snapA] [snapA, snapB] 8 = ⟨[], 0, 0⟩)
    ∧ ((∀ q ∈ xCandidates (getBBox [snapA]) (snapOthers [snapA] [snapA, snapB]),
        (8 : ℚ) ≤ |q.1 - q.2|) →
      (computeSnapGuides [snapA] [snapA, snapB] 8).snapDx = 0
      ∧ ∀ sl ∈ (computeSnapGuides [snapA] [snapA, snapB] 8).lines,
          sl.type ≠ SnapLineType.v)
    ∧ ((∀ q ∈ yCandidates (getBBox [snapA]) (snapOthers [snapA] [snapA, snapB]),
        (8 : ℚ) ≤ |q.1 - q.2|) →
      (computeSnapGuides [snapA] [snapA, snapB] 8).snapDy = 0
      ∧ ∀ sl ∈ (computeSnapGuides [snapA] [snapA, snapB] 8).lines,
          sl.type ≠ SnapLineType.h)) :=
  ⟨by decide, snap_axis_independence [snapA] [snapA, snapB] 8 (by decide)⟩

/-- C5 counterexample: a drag exactly aligned on X (distance zero, within
the threshold) with no Y pair within threshold yields `snapDx = 0`, not a
non-zero X delta as claimed — the guide line is emitted but the delta is
the exact difference, which is zero. -/
theorem snap_axis_independence_counterexample :
    (∃ q ∈ xCandidates (getBBox [snapA]) (snapOthers [snapA] [snapA, snapBAligned]),
      |q.1 - q.2| < 8)
    ∧ (∀ q ∈ yCandidates (getBBox [snapA]) (snapOthers [snapA] [snapA, snapBAligned]),
      (8 : ℚ) ≤ |q.1 - q.2|)
    ∧ (computeSnapGuides [snapA] [snapA, snapBAligned] 8).snapDx = 0 := by
  have hmem0 : ((0 : ℚ), (0 : ℚ))
      ∈ xCandidates (getBBox [snapA]) (snapOthers [snapA] [snapA, snapBAligned]) := by
    have h0 : (xCandidates (getBBox [snapA])
        (snapOthers [snapA] [snapA, snapBAligned]))[0]? = some ((0 : ℚ), (0 : ℚ)) := rfl
    obtain ⟨hlt, hv⟩ := List.getElem?_eq_some_iff.1 h0
    rw [← hv]
    exact List.getElem_mem hlt
  refine ⟨⟨((0 : ℚ), (0 : ℚ)), hmem0, by norm_num⟩, ?_, ?_⟩
  · have hyc : yCandidates (getBBox [snapA]) (snapOthers [snapA] [snapA, snapBAligned])
        = [((0 : ℚ), (100 : ℚ)), (0, 100 + 10), ((0 + (0 + 10)) / 2, 100 + 10 / 2),
            (0 + 10, 100 + 10), (0 + 10, 100)] := rfl
    intro q hq
    rw [hyc] at hq
    fin_cases hq <;> norm_num
  · have ho : snapOthers [snapA] [snapA, snapBAligned] ≠ [] := by decide
    rw [computeSnapGuides_main [snapA] [snapA, snapBAligned] 8 (by decide) ho]
    obtain ⟨-, hx2, -, hx4⟩ := foldl_stepPair_spec
      (xCandidates (getBBox [snapA]) (snapOthers [snapA] [snapA, snapBAligned]))
      ⟨none, none, 8⟩
    obtain ⟨q, hq, hmin, hdelta, -, -⟩ := hx4 ⟨((0 : ℚ), (0 : ℚ)), hmem0, by norm_num⟩
    have hle := hx2 ((0 : ℚ), (0 : ℚ)) hmem0
    simp only
    rw [hdelta]
    simp only [Option.getD_some]
    have habs : |q.1 - q.2| = 0 := by
      have h1 : (0 : ℚ) ≤ |q.1 - q.2| := abs_nonneg _
      have h2 : |(0 : ℚ) - 0| = 0 := by norm_num
      rw [hmin]
      linarith [hmin ▸ h1]
    have hq12 : q.1 = q.2 := by
      have := abs_eq_zero.1 habs
      linarith
    rw [hq12]
    ring

/-! ## Claim C7 — horizontal distribution spacing -/

/-- C7: for at least 3 selected nodes (with distinct ids), horizontal
distribution re-places the selected nodes so that, taking them in
x-sorted order, the gap between every adjacent pair of placed nodes
equals `(span − total width) / (count − 1)`, and the first and last
sorted nodes retain their original positions. -/
theorem distribute_h_spacing (nodes : List FlowNode)
    (h3 : 3 ≤ (nodes.filter (fun n => n.selected)).length)
    (hnd : (nodes.map (fun n => n.id)).Nodup) :
    (∀ (k : ℕ) (a b : FlowNode),
      (sortedByX (nodes.filter (fun n => n.selected)))[k]? = some a →
      (sortedByX (nodes.filter (fun n => n.selected)))[k+1]? = some b →
      ∃ p q : Pos,
        posOfId (handleDistribute DistributeDir.h nodes) a.id = some p
        ∧ posOfId (handleDistribute DistributeDir.h nodes) b.id = some q
        ∧ q.x = p.x + nodeW a
            + hDistGap (sortedByX (nodes.filter (fun n => n.selected)))
        ∧ p.y = a.position.y ∧ q.y = b.position.y)
    ∧ (∀ a : FlowNode,
        (sortedByX (nodes.filter (fun n => n.selected))).head? = some a →
        posOfId (handleDistribute DistributeDir.h nodes) a.id = some a.position)
    ∧ (∀ a : FlowNode,
        (sortedByX (nodes.filter (fun n => n.selected))).getLast? = some a →
        posOfId (handleDistribute DistributeDir.h nodes) a.id
          = some a.position) := by
  have h3' : ¬ (nodes.filter (fun n => n.selected)).length < 3 := by omega
  have hperm' : (sortedByX (nodes.filter (fun n => n.selected))).Perm
      (nodes.filter (fun n => n.selected)) := by
    unfold sortedByX
    exact List.mergeSort_perm _ _
  have hndsel : ((nodes.filter (fun n => n.selected)).map
      (fun n => n.id)).Nodup :=
    (List.Sublist.map (fun n => n.id) (List.filter_sublist nodes)).nodup hnd
  have hnds : ((sortedByX (nodes.filter (fun n => n.selected))).map
      (fun n => n.id)).Nodup :=
    (hperm'.map (fun n => n.id)).nodup_iff.2 hndsel
  have hout : ∀ a ∈ sortedByX (nodes.filter (fun n => n.selected)),
      posOfId (handleDistribute DistributeDir.h nodes) a.id
        = some ⟨(coordLookup
            (hAssign (sortedByX (nodes.filter (fun n => n.selected)))
              (hDistGap (sortedByX (nodes.filter (fun n => n.selected)))))
            a.id).getD a.position.x, a.position.y⟩ := by
    intro a ha
    obtain ⟨han, hasel⟩ := List.mem_filter.1 (hperm'.subset ha)
    rw [handleDistribute_h_eq nodes h3']
    rw [posOfId_map nodes _
      (fun n => by by_cases hc : n.selected = true <;> simp [hc]) a hnd han]
    simp [hasel]
  have hlook : ∀ (k : ℕ)
      (hk : k < (sortedByX (nodes.filter (fun n => n.selected))).length),
      coordLookup
          (hAssign (sortedByX (nodes.filter (fun n => n.selected)))
            (hDistGap (sortedByX (nodes.filter (fun n => n.selected)))))
          ((sortedByX (nodes.filter (fun n => n.selected)))[k].id)
        = some ((((sortedByX (nodes.filter (fun n => n.selected))).head?.map
              (fun n => n.position.x)).getD 0
            + (((sortedByX (nodes.filter (fun n => n.selected))).take k).map
                nodeW).sum)
            + (k : ℚ)
              * hDistGap (sortedByX (nodes.filter (fun n => n.selected)))) := by
    intro k hk
    unfold hAssign
    exact coordLookup_hAssignFrom _ _ hnds _ k hk
  refine ⟨?_, ?_, ?_⟩
  · intro k a b hka hkb
    obtain ⟨hk0, ha⟩ := List.getElem?_eq_some_iff.1 hka
    obtain ⟨hk1, hb⟩ := List.getElem?_eq_some_iff.1 hkb
    have hma : a ∈ sortedByX (nodes.filter (fun n => n.selected)) := by
      rw [← ha]
      exact List.getElem_mem hk0
    have hmb : b ∈ sortedByX (nodes.filter (fun n => n.selected)) := by
      rw [← hb]
      exact List.getElem_mem hk1
    have hpa := hout a hma
    have hpb := hout b hmb
    have hla := hlook k hk0
    rw [ha] at hla
    have hlb := hlook (k+1) hk1
    rw [hb] at hlb
    rw [hla] at hpa
    rw [hlb] at hpb
    simp only [Option.getD_some] at hpa hpb
    refine ⟨_, _, hpa, hpb, ?_, rfl, rfl⟩
    dsimp only
    rw [take_map_sum_succ _ k hk0, ha]
    push_cast
    ring
  · intro a hha
    have h0q : (sortedByX (nodes.filter (fun n => n.selected)))[0]?
        = some a := by
      rw [← List.head?_eq_getElem?]
      exact hha
    obtain ⟨h0, ha0⟩ := List.getElem?_eq_some_iff.1 h0q
    have hma : a ∈ sortedByX (nodes.filter (fun n => n.selected)) := by
      rw [← ha0]
      exact List.getElem_mem h0
    have hla := hlook 0 h0
    rw [ha0, hha] at hla
    rw [hout a hma, hla]
    simp only [Option.getD_some, Option.map_some', List.take_zero,
      List.map_nil, List.sum_nil, add_zero, Nat.cast_zero, zero_mul]
  · intro a hha
    have hlq : (sortedByX (nodes.filter (fun n => n.selected)))[
        (sortedByX (nodes.filter (fun n => n.selected))).length - 1]?
        = some a := by
      rw [← List.getLast?_eq_getElem?]
      exact hha
    obtain ⟨hlt, hal⟩ := List.getElem?_eq_some_iff.1 hlq
    have hma : a ∈ sortedByX (nodes.filter (fun n => n.selected)) := by
      rw [← hal]
      exact List.getElem_mem hlt
    have hn3 : 3 ≤ (sortedByX (nodes.filter (fun n => n.selected))).length := by
      rw [hperm'.length_eq]
      exact h3
    have hex0 : 0 < (sortedByX (nodes.filter (fun n => n.selected))).length := by
      omega
    have hne1 : ((sortedByX (nodes.filter
        (fun n => n.selected))).length : ℚ) - 1 ≠ 0 := by
      have hc : (3:ℚ) ≤ ((sortedByX (nodes.filter
          (fun n => n.selected))).length : ℚ) := by
        exact_mod_cast hn3
      intro hz
      linarith
    have hgap : (((sortedByX (nodes.filter (fun n => n.selected))).length : ℚ)
          - 1) * hDistGap (sortedByX (nodes.filter (fun n => n.selected)))
        = hSpan (sortedByX (nodes.filter (fun n => n.selected)))
          - ((sortedByX (nodes.filter (fun n => n.selected))).map nodeW).sum := by
      unfold hDistGap
      rw [mul_div_cancel₀ _ hne1]
    have hspan : hSpan (sortedByX (nodes.filter (fun n => n.selected)))
        = a.position.x + nodeW a
          - ((sortedByX (nodes.filter (fun n => n.selected)))[0]).position.x := by
      unfold hSpan
      rw [List.head?_eq_getElem?, List.getElem?_eq_getElem hex0, hha]
    have h1 := take_map_sum_succ (sortedByX (nodes.filter (fun n => n.selected)))
      ((sortedByX (nodes.filter (fun n => n.selected))).length - 1) hlt
    rw [hal] at h1
    have h2 : (sortedByX (nodes.filter (fun n => n.selected))).length - 1 + 1
        = (sortedByX (nodes.filter (fun n => n.selected))).length := by
      omega
    rw [h2, List.take_length] at h1
    have hh1 : 1 ≤ (sortedByX (nodes.filter (fun n => n.selected))).length := by
      omega
    have hcast : ((((sortedByX (nodes.filter
          (fun n => n.selected))).length - 1 : ℕ)) : ℚ)
        = ((sortedByX (nodes.filter (fun n => n.selected))).length : ℚ) - 1 := by
      rw [Nat.cast_sub hh1, Nat.cast_one]
    have hla := hlook
      ((sortedByX (nodes.filter (fun n => n.selected))).length - 1) hlt
    rw [hal] at hla
    rw [hout a hma, hla]
    simp only [Option.getD_some]
    rw [List.head?_eq_getElem?, List.getElem?_eq_getElem hex0]
    simp only [Option.map_some', Option.getD_some]
    rw [hcast]
    have hx : (((sortedByX (nodes.filter (fun n => n.selected)))[0]).position.x
          + (((sortedByX (nodes.filter (fun n => n.selected))).take
              ((sortedByX (nodes.filter
                (fun n => n.selected))).length - 1)).map nodeW).sum)
          + ((((sortedByX (nodes.filter (fun n => n.selected))).length : ℚ) - 1)
            * hDistGap (sortedByX (nodes.filter (fun n => n.selected))))
        = a.position.x := by
      rw [hgap, hspan]
      linarith [h1]
    rw [hx]

/-- Four selected 10-wide nodes at x = 0, 1, 2, 90: span 100, total width
40, uniform gap 20. -/
def distFixture : List FlowNode :=
  [⟨NodeId.input 0, ⟨0, 5⟩, none, none, some 10, some 10, true⟩,
   ⟨NodeId.input 1, ⟨1, 6⟩, none, none, some 10, some 10, true⟩,
   ⟨NodeId.input 2, ⟨2, 7⟩, none, none, some 10, some 10, true⟩,
   ⟨NodeId.input 3, ⟨90, 8⟩, none, none, some 10, some 10, true⟩]

theorem distribute_h_spacing_witness :
    ((3 ≤ (distFixture.filter (fun n => n.selected)).length)
      ∧ (distFixture.map (fun n => n.id)).Nodup)
    ∧ ((∀ (k : ℕ) (a b : FlowNode),
      (sortedByX (distFixture.filter (fun n => n.selected)))[k]? = some a →
      (sortedByX (distFixture.filter (fun n => n.selected)))[k+1]? = some b →
      ∃ p q : Pos,
        posOfId (handleDistribute DistributeDir.h distFixture) a.id = some p
        ∧ posOfId (handleDistribute DistributeDir.h distFixture) b.id = some q
        ∧ q.x = p.x + nodeW a
            + hDistGap (sortedByX (distFixture.filter (fun n => n.selected)))
        ∧ p.y = a.position.y ∧ q.y = b.position.y)
    ∧ (∀ a : FlowNode,
        (sortedByX (distFixture.filter (fun n => n.selected))).head? = some a →
        posOfId (handleDistribute DistributeDir.h distFixture) a.id
          = some a.position)
    ∧ (∀ a : FlowNode,
        (sortedByX (distFixture.filter (fun n => n.selected))).getLast? = some a →
        posOfId (handleDistribute DistributeDir.h distFixture) a.id
          = some a.position)) :=
  ⟨⟨by decide, by decide⟩,
    distribute_h_spacing distFixture (by decide) (by decide)⟩

end Agentictx
